import Mathlib

/-!
Shallow embedding of the `setup-pubsub-emulator` provisioning utility.

`src/main.go` is a one-shot script: it optionally loads a dotenv file, builds
a structured logger (`src/app/logs.go`, `NewAppLogger`), validates five
required environment values, waits for the emulator's TCP port with a
deadline-bounded poll loop (`waitForPubSubEmulator`), then ensures a
dead-letter topic, a main topic and a pull subscription with a dead-letter
policy on the broker, deleting and recreating the subscription when it
already exists.

Modelling conventions:
* The broker is a state (`BrokerState`): a list of topic ids and an
  association list of subscription ids to configurations.
* Every client-library call may fail; failure is decided by an oracle
  `err : BrokerOp → Bool` (the Go code aborts with `log.Fatalf` on any such
  error).  TCP dial outcomes are an oracle `dial : Nat → Bool` indexed by
  attempt number; dotenv loading, TCP-address resolution and client
  construction are booleans of the `World`.
* Runs also produce a trace of `Event`s (dial attempts, sleeps, warnings,
  client creation, broker calls) so ordering properties can be stated.
* Logging output, the logger handler objects and the span-context handler
  are I/O glue and are not modelled beyond the level/error result of
  `NewAppLogger` and warning events.
-/

/-- Go struct `pubsub.DeadLetterPolicy` (the fields `main.go` sets). -/
structure DeadLetterPolicy where
  deadLetterTopic : String
  maxDeliveryAttempts : Nat
deriving DecidableEq, Repr

/-- Go struct `pubsub.SubscriptionConfig`, restricted to the fields the
program sets plus the push-endpoint field (zero-valued, i.e. `none`, in the
config `main.go` builds: it never configures a push subscription). -/
structure SubscriptionConfig where
  topic : String
  deadLetterPolicy : Option DeadLetterPolicy
  ackDeadlineSeconds : Nat
  pushEndpoint : Option String
deriving DecidableEq, Repr

/-- Broker (emulator) state: which topics exist, and which subscriptions
exist with which configuration. -/
structure BrokerState where
  topics : List String
  subs : List (String × SubscriptionConfig)
deriving DecidableEq, Repr

/-- Effect of `client.CreateTopic` on the broker. -/
def BrokerState.createTopic (b : BrokerState) (id : String) : BrokerState :=
  { b with topics := id :: b.topics }

/-- Configuration lookup backing `sub.Exists` and the final-state claims. -/
def subLookup (id : String) : List (String × SubscriptionConfig) → Option SubscriptionConfig
  | [] => none
  | p :: rest => if p.1 = id then some p.2 else subLookup id rest

/-- Removal of a subscription id from the association list
(effect of `sub.Delete`). -/
def removeSub (id : String) : List (String × SubscriptionConfig) → List (String × SubscriptionConfig)
  | [] => []
  | p :: rest => if p.1 = id then removeSub id rest else p :: removeSub id rest

/-- Effect of `sub.Delete` on the broker. -/
def BrokerState.deleteSubscription (b : BrokerState) (id : String) : BrokerState :=
  { b with subs := removeSub id b.subs }

/-- Effect of `client.CreateSubscription` on the broker. -/
def BrokerState.createSubscription (b : BrokerState) (id : String)
    (cfg : SubscriptionConfig) : BrokerState :=
  { b with subs := (id, cfg) :: b.subs }

/-- The environment values `main.go` reads (lines 35-44): the raw strings of
`PUBSUB_EMULATOR_ENV`, `PUBSUB_EMULATOR_LOG_LEVEL`, `PUBSUB_EMULATOR_HOST`,
the project id, the topic id, the subscription id and the DLT topic id. -/
structure Env where
  env : String
  logLevel : String
  emulatorHost : String
  projectID : String
  topicID : String
  subID : String
  dltID : String
deriving DecidableEq, Repr

/-- Result of `dltTopic.String()`: the fully qualified topic name
`projects/PROJECT_ID/topics/TOPIC_ID` (comment at `main.go:148`). -/
def topicFullName (projectID id : String) : String :=
  "projects/" ++ projectID ++ "/topics/" ++ id

/-- The subscription configuration literal built at `main.go:145-152`:
topic = the main topic, dead-letter policy naming the DLT's full name with
`MaxDeliveryAttempts: 10`, `AckDeadline: 60 * time.Second`, and no push
configuration (Go zero value). -/
def freshSubConfig (e : Env) : SubscriptionConfig :=
  { topic := e.topicID
    deadLetterPolicy := some
      { deadLetterTopic := topicFullName e.projectID e.dltID
        maxDeliveryAttempts := 10 }
    ackDeadlineSeconds := 60
    pushEndpoint := none }

/-- The broker calls `main.go` can issue.  `deleteTopic` is in the client
library's surface but is never called by this program; it is included so the
"no topic is ever deleted" claim is a statement about traces rather than
vacuous. -/
inductive BrokerOp where
  | existsTopic (id : String)
  | createTopic (id : String)
  | deleteTopic (id : String)
  | existsSub (id : String)
  | deleteSub (id : String)
  | createSub (id : String) (cfg : SubscriptionConfig)
deriving DecidableEq, Repr

/-- Observable events of a run. -/
inductive Event where
  | dialAttempt (ok : Bool)
  | connClosed
  | slept (seconds : Nat)
  | logWarn
  | clientCreated
  | brokerOp (op : BrokerOp)
deriving DecidableEq, Repr

/-- The broker calls of a trace, in order. -/
def brokerOps (tr : List Event) : List BrokerOp :=
  tr.filterMap fun ev =>
    match ev with
    | .brokerOp op => some op
    | _ => none

/-- How a run of `main` ends fatally (`log.Fatal*`, `os.Exit(1)` or the
early `return` in the logger-error branch). -/
inductive ExitKind where
  | dotenvFailed
  | loggerConfig
  | envNotSet
  | resolveFailed
  | emulatorNotReady
  | clientFailed
  | brokerCall (op : BrokerOp)
deriving DecidableEq, Repr

/-- Run outcome. -/
inductive ExitStatus where
  | ok
  | fatal (k : ExitKind)
deriving DecidableEq, Repr

/-- The `slog` levels (only the named levels matter to this program; the parse
function below is an oracle, so finer levels are irrelevant). -/
inductive LogLevel where
  | debug
  | info
  | warn
  | error
deriving DecidableEq, Repr

/-- Errors `NewAppLogger` can report.  `unknownLogLevel s` stands for
`errors.Join(ErrUnknownLogLevel, err)` produced when parsing the level
string `s` fails (`logs.go:51`); `other` stands for any logger error not
wrapping `ErrUnknownLogLevel` (the code never constructs one, which is what
makes `main`'s fatal logger branch unreachable). -/
inductive LoggerError where
  | unknownLogLevel (levelStr : String)
  | other (msg : String)
deriving DecidableEq, Repr

/-- Test `errors.Is(e, app.ErrUnknownLogLevel)`. -/
def isUnknownLogLevel : LoggerError → Bool
  | .unknownLogLevel _ => true
  | .other _ => false

/-- Model of `app.NewAppLogger` (`src/app/logs.go:43-100`), level/error logic only:
the level starts at Info; a non-empty level string is parsed (the stdlib
`slog.Level.UnmarshalText` is the oracle `parse`); on parse failure the
level is reset to Info and the returned error joins `ErrUnknownLogLevel`.
Handler construction (tint/JSON, span context) always succeeds and is not
modelled. -/
def NewAppLogger (parse : String → Option LogLevel) (env levelStr : String) :
    LogLevel × Option LoggerError :=
  let _ := env
  if levelStr = "" then (.info, none)
  else
    match parse levelStr with
    | some l => (l, none)
    | none => (.info, some (.unknownLogLevel levelStr))

/-- Lines 51-64 of `main.go`: with a logger error present, `main` returns (aborts)
exactly when the error is not `ErrUnknownLogLevel`; otherwise it only warns. -/
def loggerAbortDecision : Option LoggerError → Bool
  | some le => !(isUnknownLogLevel le)
  | none => false

/-- Error message of `waitForPubSubEmulator` on timeout (`main.go:168`). -/
def waitTimeoutMsg (timeout : Nat) : String :=
  "Pub/Sub emulator did not become available within " ++ toString timeout ++ "s"

/-- The poll loop of `waitForPubSubEmulator` (`main.go:166-180`),
reparameterised by the number of remaining dial attempts.  The Go loop
checks `time.Now().After(deadline)` (strictly after), dials, and sleeps 2
seconds after a failed dial; with `deadline = start + timeout` the dials
happen at times `start + 2*i` for `i ≤ timeout / 2`, i.e. the loop performs
exactly `timeout / 2 + 1` dial attempts before giving up, which is the
`attempts` argument here.  On a successful dial the probe connection is
closed and the loop returns nil. -/
def waitAttempts (dial : Nat → Bool) (msg : String) :
    Nat → Nat → Except String Unit × List Event
  | 0, _ => (.error msg, [])
  | n + 1, k =>
    if dial k then (.ok (), [.dialAttempt true, .connClosed])
    else
      let r := waitAttempts dial msg n (k + 1)
      (r.1, .dialAttempt false :: .slept 2 :: r.2)

/-- Model of `waitForPubSubEmulator(emulatorHost, logger, timeout)` (`main.go:163`).
The TCP address and logger are I/O glue; dial outcomes are the oracle
`dial`, indexed by attempt number. -/
def waitForPubSubEmulator (dial : Nat → Bool) (timeout : Nat) :
    Except String Unit × List Event :=
  waitAttempts dial (waitTimeoutMsg timeout) (timeout / 2 + 1) 0

/-- The trace of `n` failed dial attempts, each followed by the 2-second
sleep. -/
def failEvents : Nat → List Event
  | 0 => []
  | n + 1 => .dialAttempt false :: .slept 2 :: failEvents n

/-- One "ensure topic" block (`main.go:95-110` for the DLT and
`main.go:112-127` for the main topic): check existence (fatal on error);
if the topic exists, warn and leave it alone; otherwise create it
(fatal on error). -/
def ensureTopic (err : BrokerOp → Bool) (id : String) (b : BrokerState) :
    ExitStatus × BrokerState × List Event :=
  if err (.existsTopic id) then
    (.fatal (.brokerCall (.existsTopic id)), b, [.brokerOp (.existsTopic id)])
  else if id ∈ b.topics then
    (.ok, b, [.brokerOp (.existsTopic id), .logWarn])
  else if err (.createTopic id) then
    (.fatal (.brokerCall (.createTopic id)), b,
      [.brokerOp (.existsTopic id), .brokerOp (.createTopic id)])
  else
    (.ok, b.createTopic id,
      [.brokerOp (.existsTopic id), .brokerOp (.createTopic id)])

/-- The subscription block (`main.go:129-158`): check existence (fatal on
error); if the subscription exists, warn, delete it (fatal on error); then
unconditionally create it with the fresh configuration (fatal on error). -/
def subscriptionPhase (err : BrokerOp → Bool) (e : Env) (b : BrokerState) :
    ExitStatus × BrokerState × List Event :=
  if err (.existsSub e.subID) then
    (.fatal (.brokerCall (.existsSub e.subID)), b, [.brokerOp (.existsSub e.subID)])
  else if (subLookup e.subID b.subs).isSome then
    if err (.deleteSub e.subID) then
      (.fatal (.brokerCall (.deleteSub e.subID)), b,
        [.brokerOp (.existsSub e.subID), .logWarn, .brokerOp (.deleteSub e.subID)])
    else if err (.createSub e.subID (freshSubConfig e)) then
      (.fatal (.brokerCall (.createSub e.subID (freshSubConfig e))),
        b.deleteSubscription e.subID,
        [.brokerOp (.existsSub e.subID), .logWarn, .brokerOp (.deleteSub e.subID),
         .brokerOp (.createSub e.subID (freshSubConfig e))])
    else
      (.ok, (b.deleteSubscription e.subID).createSubscription e.subID (freshSubConfig e),
        [.brokerOp (.existsSub e.subID), .logWarn, .brokerOp (.deleteSub e.subID),
         .brokerOp (.createSub e.subID (freshSubConfig e))])
  else if err (.createSub e.subID (freshSubConfig e)) then
    (.fatal (.brokerCall (.createSub e.subID (freshSubConfig e))), b,
      [.brokerOp (.existsSub e.subID), .brokerOp (.createSub e.subID (freshSubConfig e))])
  else
    (.ok, b.createSubscription e.subID (freshSubConfig e),
      [.brokerOp (.existsSub e.subID), .brokerOp (.createSub e.subID (freshSubConfig e))])

/-- The three broker-provisioning steps of `main.go:95-158` in order:
dead-letter topic, main topic, subscription; a fatal step stops the run. -/
def brokerPhase (err : BrokerOp → Bool) (e : Env) (b : BrokerState) :
    ExitStatus × BrokerState × List Event :=
  let r1 := ensureTopic err e.dltID b
  match r1.1 with
  | .fatal k => (.fatal k, r1.2.1, r1.2.2)
  | .ok =>
    let r2 := ensureTopic err e.topicID r1.2.1
    match r2.1 with
    | .fatal k => (.fatal k, r2.2.1, r1.2.2 ++ r2.2.2)
    | .ok =>
      let r3 := subscriptionPhase err e r2.2.1
      (r3.1, r3.2.1, r1.2.2 ++ r2.2.2 ++ r3.2.2)

/-- The non-broker outside world of a run: whether dotenv loading succeeds
(`main.go:23-33`, folding in the `os.Getwd` call), how the stdlib parses
level strings, whether the TCP address resolves (`main.go:75-79`), dial
outcomes per attempt, whether `pubsub.NewClient` succeeds (`main.go:87-90`),
and which broker calls fail. -/
structure World where
  dotenvOk : Bool
  parseLevel : String → Option LogLevel
  resolveOk : Bool
  dial : Nat → Bool
  clientOk : Bool
  err : BrokerOp → Bool

/-- Model of `main` after the logger stage (`main.go:65-161`): validate the five
required environment values in source order, resolve the TCP address, wait
for the emulator (hard-coded 30-second timeout, `main.go:81`), create the
client, then run the broker phase. -/
def runValidated (w : World) (e : Env) (b : BrokerState) :
    ExitStatus × BrokerState × List Event :=
  if e.emulatorHost = "" then (.fatal .envNotSet, b, [])
  else if e.projectID = "" then (.fatal .envNotSet, b, [])
  else if e.topicID = "" ∨ e.subID = "" ∨ e.dltID = "" then (.fatal .envNotSet, b, [])
  else if w.resolveOk = false then (.fatal .resolveFailed, b, [])
  else
    match waitForPubSubEmulator w.dial 30 with
    | (.error _, trW) => (.fatal .emulatorNotReady, b, trW)
    | (.ok _, trW) =>
      if w.clientOk = false then (.fatal .clientFailed, b, trW)
      else
        let r := brokerPhase w.err e b
        (r.1, r.2.1, trW ++ .clientCreated :: r.2.2)

/-- Model of `main` (`src/main.go:19-161`): dotenv (only when the environment is
`local`), logger construction with the `ErrUnknownLogLevel`-tolerant error
handling of lines 51-64 (a warning, then continue), then `runValidated`. -/
def runMain (w : World) (e : Env) (b : BrokerState) :
    ExitStatus × BrokerState × List Event :=
  if e.env = "local" ∧ w.dotenvOk = false then (.fatal .dotenvFailed, b, [])
  else
    match (NewAppLogger w.parseLevel e.env e.logLevel).2 with
    | none => runValidated w e b
    | some le =>
      if isUnknownLogLevel le then
        let r := runValidated w e b
        (r.1, r.2.1, .logWarn :: r.2.2)
      else (.fatal .loggerConfig, b, [])

/-! ### Helper lemmas about the association-list operations -/

theorem subLookup_cons_self (id : String) (c : SubscriptionConfig)
    (rest : List (String × SubscriptionConfig)) :
    subLookup id ((id, c) :: rest) = some c := by
  simp [subLookup]

theorem subLookup_removeSub_self (id : String) :
    ∀ l : List (String × SubscriptionConfig), subLookup id (removeSub id l) = none := by
  intro l
  induction l with
  | nil => simp [removeSub, subLookup]
  | cons p rest ih =>
    by_cases h : p.1 = id
    · simpa [removeSub, h] using ih
    · simpa [removeSub, subLookup, h] using ih

theorem removeSub_of_lookup_none (id : String) :
    ∀ l : List (String × SubscriptionConfig), subLookup id l = none → removeSub id l = l := by
  intro l
  induction l with
  | nil => intro _; rfl
  | cons p rest ih =>
    intro h
    by_cases hp : p.1 = id
    · simp [subLookup, hp] at h
    · simp only [removeSub, if_neg hp]
      rw [ih]
      simpa [subLookup, hp] using h

/-! ### Helper lemmas about traces -/

theorem brokerOps_nil : brokerOps [] = [] := rfl

theorem brokerOps_append (l1 l2 : List Event) :
    brokerOps (l1 ++ l2) = brokerOps l1 ++ brokerOps l2 := by
  simp [brokerOps]

theorem brokerOps_waitAttempts (dial : Nat → Bool) (msg : String) :
    ∀ n k, brokerOps (waitAttempts dial msg n k).2 = [] := by
  intro n
  induction n with
  | zero => intro k; rfl
  | succ m ih =>
    intro k
    by_cases h : dial k
    · simp [waitAttempts, h, brokerOps]
    · simp only [waitAttempts, h, Bool.false_eq_true, if_false]
      simpa [brokerOps] using ih (k + 1)

theorem clientCreated_notin_waitAttempts (dial : Nat → Bool) (msg : String) :
    ∀ n k, Event.clientCreated ∉ (waitAttempts dial msg n k).2 := by
  intro n
  induction n with
  | zero => intro k; simp [waitAttempts]
  | succ m ih =>
    intro k
    by_cases h : dial k
    · simp [waitAttempts, h]
    · simp only [waitAttempts, h, Bool.false_eq_true, if_false]
      simpa using ih (k + 1)

/-! ### Case analyses of the provisioning steps -/

theorem ensureTopic_cases (err : BrokerOp → Bool) (id : String) (b : BrokerState) :
    (err (.existsTopic id) = true ∧
      ensureTopic err id b =
        (.fatal (.brokerCall (.existsTopic id)), b, [.brokerOp (.existsTopic id)])) ∨
    (err (.existsTopic id) = false ∧ id ∈ b.topics ∧
      ensureTopic err id b = (.ok, b, [.brokerOp (.existsTopic id), .logWarn])) ∨
    (err (.existsTopic id) = false ∧ id ∉ b.topics ∧ err (.createTopic id) = true ∧
      ensureTopic err id b =
        (.fatal (.brokerCall (.createTopic id)), b,
          [.brokerOp (.existsTopic id), .brokerOp (.createTopic id)])) ∨
    (err (.existsTopic id) = false ∧ id ∉ b.topics ∧ err (.createTopic id) = false ∧
      ensureTopic err id b =
        (.ok, b.createTopic id,
          [.brokerOp (.existsTopic id), .brokerOp (.createTopic id)])) := by
  by_cases h1 : err (.existsTopic id) = true
  · exact Or.inl ⟨h1, by simp [ensureTopic, h1]⟩
  · rw [Bool.not_eq_true] at h1
    by_cases h2 : id ∈ b.topics
    · exact Or.inr (Or.inl ⟨h1, h2, by simp [ensureTopic, h1, h2]⟩)
    · by_cases h3 : err (.createTopic id) = true
      · exact Or.inr (Or.inr (Or.inl ⟨h1, h2, h3, by simp [ensureTopic, h1, h2, h3]⟩))
      · rw [Bool.not_eq_true] at h3
        exact Or.inr (Or.inr (Or.inr ⟨h1, h2, h3, by simp [ensureTopic, h1, h2, h3]⟩))

theorem subscriptionPhase_cases (err : BrokerOp → Bool) (e : Env) (b : BrokerState) :
    (err (.existsSub e.subID) = true ∧
      subscriptionPhase err e b =
        (.fatal (.brokerCall (.existsSub e.subID)), b, [.brokerOp (.existsSub e.subID)])) ∨
    (err (.existsSub e.subID) = false ∧ (subLookup e.subID b.subs).isSome = true ∧
      err (.deleteSub e.subID) = true ∧
      subscriptionPhase err e b =
        (.fatal (.brokerCall (.deleteSub e.subID)), b,
          [.brokerOp (.existsSub e.subID), .logWarn, .brokerOp (.deleteSub e.subID)])) ∨
    (err (.existsSub e.subID) = false ∧ (subLookup e.subID b.subs).isSome = true ∧
      err (.deleteSub e.subID) = false ∧
      err (.createSub e.subID (freshSubConfig e)) = true ∧
      subscriptionPhase err e b =
        (.fatal (.brokerCall (.createSub e.subID (freshSubConfig e))),
          b.deleteSubscription e.subID,
          [.brokerOp (.existsSub e.subID), .logWarn, .brokerOp (.deleteSub e.subID),
           .brokerOp (.createSub e.subID (freshSubConfig e))])) ∨
    (err (.existsSub e.subID) = false ∧ (subLookup e.subID b.subs).isSome = true ∧
      err (.deleteSub e.subID) = false ∧
      err (.createSub e.subID (freshSubConfig e)) = false ∧
      subscriptionPhase err e b =
        (.ok, (b.deleteSubscription e.subID).createSubscription e.subID (freshSubConfig e),
          [.brokerOp (.existsSub e.subID), .logWarn, .brokerOp (.deleteSub e.subID),
           .brokerOp (.createSub e.subID (freshSubConfig e))])) ∨
    (err (.existsSub e.subID) = false ∧ (subLookup e.subID b.subs).isSome = false ∧
      err (.createSub e.subID (freshSubConfig e)) = true ∧
      subscriptionPhase err e b =
        (.fatal (.brokerCall (.createSub e.subID (freshSubConfig e))), b,
          [.brokerOp (.existsSub e.subID),
           .brokerOp (.createSub e.subID (freshSubConfig e))])) ∨
    (err (.existsSub e.subID) = false ∧ (subLookup e.subID b.subs).isSome = false ∧
      err (.createSub e.subID (freshSubConfig e)) = false ∧
      subscriptionPhase err e b =
        (.ok, b.createSubscription e.subID (freshSubConfig e),
          [.brokerOp (.existsSub e.subID),
           .brokerOp (.createSub e.subID (freshSubConfig e))])) := by
  by_cases h1 : err (.existsSub e.subID) = true
  · exact Or.inl ⟨h1, by simp [subscriptionPhase, h1]⟩
  rw [Bool.not_eq_true] at h1
  by_cases h2 : (subLookup e.subID b.subs).isSome = true
  · by_cases h3 : err (.deleteSub e.subID) = true
    · exact Or.inr (Or.inl ⟨h1, h2, h3, by simp [subscriptionPhase, h1, h2, h3]⟩)
    rw [Bool.not_eq_true] at h3
    by_cases h4 : err (.createSub e.subID (freshSubConfig e)) = true
    · exact Or.inr (Or.inr (Or.inl ⟨h1, h2, h3, h4,
        by simp [subscriptionPhase, h1, h2, h3, h4]⟩))
    rw [Bool.not_eq_true] at h4
    exact Or.inr (Or.inr (Or.inr (Or.inl ⟨h1, h2, h3, h4,
      by simp [subscriptionPhase, h1, h2, h3, h4]⟩)))
  · rw [Bool.not_eq_true] at h2
    by_cases h4 : err (.createSub e.subID (freshSubConfig e)) = true
    · exact Or.inr (Or.inr (Or.inr (Or.inr (Or.inl ⟨h1, h2, h4,
        by simp [subscriptionPhase, h1, h2, h4]⟩))))
    rw [Bool.not_eq_true] at h4
    exact Or.inr (Or.inr (Or.inr (Or.inr (Or.inr ⟨h1, h2, h4,
      by simp [subscriptionPhase, h1, h2, h4]⟩))))

/-! ### Rewriting `brokerPhase` by the outcomes of its steps -/

theorem brokerPhase_eq_fatal1 {err : BrokerOp → Bool} {e : Env} {b b1 : BrokerState}
    {k : ExitKind} {evs : List Event}
    (h : ensureTopic err e.dltID b = (.fatal k, b1, evs)) :
    brokerPhase err e b = (.fatal k, b1, evs) := by
  simp [brokerPhase, h]

theorem brokerPhase_eq_fatal2 {err : BrokerOp → Bool} {e : Env} {b b1 b2 : BrokerState}
    {k : ExitKind} {evs1 evs2 : List Event}
    (h1 : ensureTopic err e.dltID b = (.ok, b1, evs1))
    (h2 : ensureTopic err e.topicID b1 = (.fatal k, b2, evs2)) :
    brokerPhase err e b = (.fatal k, b2, evs1 ++ evs2) := by
  simp [brokerPhase, h1, h2]

theorem brokerPhase_eq_sub {err : BrokerOp → Bool} {e : Env} {b b1 b2 : BrokerState}
    {evs1 evs2 : List Event}
    (h1 : ensureTopic err e.dltID b = (.ok, b1, evs1))
    (h2 : ensureTopic err e.topicID b1 = (.ok, b2, evs2)) :
    brokerPhase err e b =
      ((subscriptionPhase err e b2).1, (subscriptionPhase err e b2).2.1,
        evs1 ++ evs2 ++ (subscriptionPhase err e b2).2.2) := by
  simp [brokerPhase, h1, h2]

/-! ### Rewriting `runMain` by the outcomes of its stages -/

theorem NewAppLogger_snd_cases (parse : String → Option LogLevel) (env s : String) :
    (NewAppLogger parse env s).2 = none ∨
    (NewAppLogger parse env s).2 = some (.unknownLogLevel s) := by
  by_cases hs : s = ""
  · exact Or.inl (by simp [NewAppLogger, hs])
  · cases hp : parse s with
    | some l => exact Or.inl (by simp [NewAppLogger, hs, hp])
    | none => exact Or.inr (by simp [NewAppLogger, hs, hp])

theorem runMain_dotenv_fail {w : World} {e : Env} (b : BrokerState)
    (h : e.env = "local" ∧ w.dotenvOk = false) :
    runMain w e b = (.fatal .dotenvFailed, b, []) := by
  simp [runMain, h]

theorem runMain_core (w : World) (e : Env) (b : BrokerState)
    (hd : ¬(e.env = "local" ∧ w.dotenvOk = false)) :
    runMain w e b = runValidated w e b ∨
    runMain w e b =
      ((runValidated w e b).1, (runValidated w e b).2.1,
        .logWarn :: (runValidated w e b).2.2) := by
  rcases NewAppLogger_snd_cases w.parseLevel e.env e.logLevel with hm | hm
  · exact Or.inl (by simp [runMain, hd, hm])
  · exact Or.inr (by simp [runMain, hd, hm, isUnknownLogLevel])

/-- All five required environment values are non-empty. -/
def envOk (e : Env) : Prop :=
  e.emulatorHost ≠ "" ∧ e.projectID ≠ "" ∧ e.topicID ≠ "" ∧ e.subID ≠ "" ∧ e.dltID ≠ ""

instance (e : Env) : Decidable (envOk e) := by
  unfold envOk
  infer_instance

theorem runValidated_env_fail (w : World) (e : Env) (b : BrokerState)
    (h : e.emulatorHost = "" ∨ e.projectID = "" ∨ e.topicID = "" ∨ e.subID = "" ∨
      e.dltID = "") :
    runValidated w e b = (.fatal .envNotSet, b, []) := by
  simp only [runValidated]
  split_ifs <;> first | rfl | tauto

theorem runValidated_resolve_fail (w : World) (e : Env) (b : BrokerState)
    (h : envOk e) (hr : w.resolveOk = false) :
    runValidated w e b = (.fatal .resolveFailed, b, []) := by
  obtain ⟨h1, h2, h3, h4, h5⟩ := h
  simp [runValidated, h1, h2, h3, h4, h5, hr]

theorem runValidated_wait_fail (w : World) (e : Env) (b : BrokerState)
    (h : envOk e) (hr : w.resolveOk = true) {msg : String} {trW : List Event}
    (hw : waitForPubSubEmulator w.dial 30 = (.error msg, trW)) :
    runValidated w e b = (.fatal .emulatorNotReady, b, trW) := by
  obtain ⟨h1, h2, h3, h4, h5⟩ := h
  simp [runValidated, h1, h2, h3, h4, h5, hr, hw]

theorem runValidated_client_fail (w : World) (e : Env) (b : BrokerState)
    (h : envOk e) (hr : w.resolveOk = true) {trW : List Event}
    (hw : waitForPubSubEmulator w.dial 30 = (.ok (), trW)) (hc : w.clientOk = false) :
    runValidated w e b = (.fatal .clientFailed, b, trW) := by
  obtain ⟨h1, h2, h3, h4, h5⟩ := h
  simp [runValidated, h1, h2, h3, h4, h5, hr, hw, hc]

theorem runValidated_broker (w : World) (e : Env) (b : BrokerState)
    (h : envOk e) (hr : w.resolveOk = true) {trW : List Event}
    (hw : waitForPubSubEmulator w.dial 30 = (.ok (), trW)) (hc : w.clientOk = true) :
    runValidated w e b =
      ((brokerPhase w.err e b).1, (brokerPhase w.err e b).2.1,
        trW ++ .clientCreated :: (brokerPhase w.err e b).2.2) := by
  obtain ⟨h1, h2, h3, h4, h5⟩ := h
  simp [runValidated, h1, h2, h3, h4, h5, hr, hw, hc]

/-- Exhaustive decomposition of a whole run into its possible stage outcomes. -/
theorem runMain_cases (w : World) (e : Env) (b : BrokerState) :
    runMain w e b = (.fatal .dotenvFailed, b, []) ∨
    (∃ pre : List Event, (pre = [] ∨ pre = [.logWarn]) ∧
      (runMain w e b = (.fatal .envNotSet, b, pre) ∨
       runMain w e b = (.fatal .resolveFailed, b, pre) ∨
       (∃ msg trW, waitForPubSubEmulator w.dial 30 = (.error msg, trW) ∧
          runMain w e b = (.fatal .emulatorNotReady, b, pre ++ trW)) ∨
       (∃ trW, waitForPubSubEmulator w.dial 30 = (.ok (), trW) ∧
          (runMain w e b = (.fatal .clientFailed, b, pre ++ trW) ∨
           runMain w e b =
             ((brokerPhase w.err e b).1, (brokerPhase w.err e b).2.1,
               pre ++ trW ++ .clientCreated :: (brokerPhase w.err e b).2.2))))) := by
  by_cases hd : e.env = "local" ∧ w.dotenvOk = false
  · exact Or.inl (runMain_dotenv_fail b hd)
  right
  have hcore := runMain_core w e b hd
  by_cases he : envOk e
  · cases hr : w.resolveOk with
    | false =>
      have hv := runValidated_resolve_fail w e b he hr
      rcases hcore with hc | hc
      · exact ⟨[], Or.inl rfl, Or.inr (Or.inl (by rw [hc, hv]))⟩
      · exact ⟨[.logWarn], Or.inr rfl, Or.inr (Or.inl (by rw [hc, hv]))⟩
    | true =>
      rcases hwp : waitForPubSubEmulator w.dial 30 with ⟨r, trW⟩
      cases r with
      | error msg =>
        have hv := runValidated_wait_fail w e b he hr hwp
        rcases hcore with hc | hc
        · exact ⟨[], Or.inl rfl,
            Or.inr (Or.inr (Or.inl ⟨msg, trW, rfl, by rw [hc, hv]; try simp⟩))⟩
        · exact ⟨[.logWarn], Or.inr rfl,
            Or.inr (Or.inr (Or.inl ⟨msg, trW, rfl, by rw [hc, hv]; try simp⟩))⟩
      | ok u =>
        cases u
        cases hcl : w.clientOk with
        | false =>
          have hv := runValidated_client_fail w e b he hr hwp hcl
          rcases hcore with hc | hc
          · exact ⟨[], Or.inl rfl,
              Or.inr (Or.inr (Or.inr ⟨trW, rfl, Or.inl (by rw [hc, hv]; try simp)⟩))⟩
          · exact ⟨[.logWarn], Or.inr rfl,
              Or.inr (Or.inr (Or.inr ⟨trW, rfl, Or.inl (by rw [hc, hv]; try simp)⟩))⟩
        | true =>
          have hv := runValidated_broker w e b he hr hwp hcl
          rcases hcore with hc | hc
          · exact ⟨[], Or.inl rfl,
              Or.inr (Or.inr (Or.inr ⟨trW, rfl, Or.inr (by rw [hc, hv]; try simp)⟩))⟩
          · exact ⟨[.logWarn], Or.inr rfl,
              Or.inr (Or.inr (Or.inr ⟨trW, rfl, Or.inr (by rw [hc, hv]; try simp)⟩))⟩
  · have h5 : e.emulatorHost = "" ∨ e.projectID = "" ∨ e.topicID = "" ∨ e.subID = "" ∨
        e.dltID = "" := by
      unfold envOk at he
      tauto
    have hv := runValidated_env_fail w e b h5
    rcases hcore with hc | hc
    · exact ⟨[], Or.inl rfl, Or.inl (by rw [hc, hv])⟩
    · exact ⟨[.logWarn], Or.inr rfl, Or.inl (by rw [hc, hv])⟩

/-! ### Inversion lemmas for successful runs -/

theorem ensureTopic_ok_inv {err : BrokerOp → Bool} {id : String} {b b1 : BrokerState}
    {evs : List Event} (h : ensureTopic err id b = (.ok, b1, evs)) :
    (id ∈ b.topics ∧ b1 = b ∧ evs = [.brokerOp (.existsTopic id), .logWarn]) ∨
    (id ∉ b.topics ∧ b1 = b.createTopic id ∧
      evs = [.brokerOp (.existsTopic id), .brokerOp (.createTopic id)]) := by
  rcases ensureTopic_cases err id b with ⟨_, hq⟩ | ⟨_, hm, hq⟩ | ⟨_, _, _, hq⟩ |
    ⟨_, hm, _, hq⟩ <;> rw [hq] at h <;> simp_all

theorem subscriptionPhase_ok_inv {err : BrokerOp → Bool} {e : Env} {b : BrokerState}
    (h : (subscriptionPhase err e b).1 = .ok) :
    ((subLookup e.subID b.subs).isSome = true ∧
      subscriptionPhase err e b =
        (.ok, (b.deleteSubscription e.subID).createSubscription e.subID (freshSubConfig e),
          [.brokerOp (.existsSub e.subID), .logWarn, .brokerOp (.deleteSub e.subID),
           .brokerOp (.createSub e.subID (freshSubConfig e))])) ∨
    ((subLookup e.subID b.subs).isSome = false ∧
      subscriptionPhase err e b =
        (.ok, b.createSubscription e.subID (freshSubConfig e),
          [.brokerOp (.existsSub e.subID),
           .brokerOp (.createSub e.subID (freshSubConfig e))])) := by
  rcases subscriptionPhase_cases err e b with ⟨_, hq⟩ | ⟨_, _, _, hq⟩ | ⟨_, _, _, _, hq⟩ |
    ⟨_, hs, _, _, hq⟩ | ⟨_, _, _, hq⟩ | ⟨_, hs, _, hq⟩ <;> rw [hq] at h <;> simp_all

theorem brokerPhase_ok_inv {err : BrokerOp → Bool} {e : Env} {b : BrokerState}
    (h : (brokerPhase err e b).1 = .ok) :
    ∃ b1 evs1 b2 evs2,
      ensureTopic err e.dltID b = (.ok, b1, evs1) ∧
      ensureTopic err e.topicID b1 = (.ok, b2, evs2) ∧
      (subscriptionPhase err e b2).1 = .ok ∧
      brokerPhase err e b =
        ((subscriptionPhase err e b2).1, (subscriptionPhase err e b2).2.1,
          evs1 ++ evs2 ++ (subscriptionPhase err e b2).2.2) := by
  rcases h1 : ensureTopic err e.dltID b with ⟨st1, b1, evs1⟩
  cases st1 with
  | fatal k => rw [brokerPhase_eq_fatal1 h1] at h; simp at h
  | ok =>
    rcases h2 : ensureTopic err e.topicID b1 with ⟨st2, b2, evs2⟩
    cases st2 with
    | fatal k => rw [brokerPhase_eq_fatal2 h1 h2] at h; simp at h
    | ok =>
      refine ⟨b1, evs1, b2, evs2, rfl, h2, ?_, brokerPhase_eq_sub h1 h2⟩
      rw [brokerPhase_eq_sub h1 h2] at h
      exact h

theorem runMain_ok_inv {w : World} {e : Env} {b : BrokerState}
    (h : (runMain w e b).1 = .ok) :
    (brokerPhase w.err e b).1 = .ok ∧
    (runMain w e b).2.1 = (brokerPhase w.err e b).2.1 := by
  rcases runMain_cases w e b with hq | ⟨pre, _, hq | hq | ⟨msg, trW, _, hq⟩ |
    ⟨trW, _, hq | hq⟩⟩ <;> rw [hq] at h ⊢ <;> simp_all

theorem brokerPhase_ok_post {err : BrokerOp → Bool} {e : Env} {b : BrokerState}
    (h : (brokerPhase err e b).1 = .ok) :
    e.dltID ∈ (brokerPhase err e b).2.1.topics ∧
    e.topicID ∈ (brokerPhase err e b).2.1.topics ∧
    ∃ rest, (brokerPhase err e b).2.1.subs = (e.subID, freshSubConfig e) :: rest ∧
      subLookup e.subID rest = none := by
  obtain ⟨b1, evs1, b2, evs2, h1, h2, hs, heq⟩ := brokerPhase_ok_inv h
  have hd1 : e.dltID ∈ b1.topics := by
    rcases ensureTopic_ok_inv h1 with ⟨hm, hb, _⟩ | ⟨hm, hb, _⟩ <;>
      rw [hb] <;> simp [BrokerState.createTopic, hm]
  have hd2 : e.dltID ∈ b2.topics ∧ e.topicID ∈ b2.topics := by
    rcases ensureTopic_ok_inv h2 with ⟨hm, hb, _⟩ | ⟨hm, hb, _⟩ <;>
      rw [hb] <;> simp [BrokerState.createTopic, hd1, hm]
  rcases subscriptionPhase_ok_inv hs with ⟨hx, hq⟩ | ⟨hx, hq⟩
  · rw [heq, hq]
    refine ⟨hd2.1, hd2.2, removeSub e.subID b2.subs, ?_, subLookup_removeSub_self _ _⟩
    simp [BrokerState.createSubscription, BrokerState.deleteSubscription]
  · rw [heq, hq]
    refine ⟨hd2.1, hd2.2, b2.subs, ?_, ?_⟩
    · simp [BrokerState.createSubscription]
    · cases hv : subLookup e.subID b2.subs with
      | none => rfl
      | some c => rw [hv] at hx; simp at hx

/-- Sub-phase states do not change the topic list. -/
theorem subscriptionPhase_topics {err : BrokerOp → Bool} {e : Env} {b : BrokerState}
    (h : (subscriptionPhase err e b).1 = .ok) :
    (subscriptionPhase err e b).2.1.topics = b.topics := by
  rcases subscriptionPhase_ok_inv h with ⟨_, hq⟩ | ⟨_, hq⟩ <;> rw [hq] <;>
    simp [BrokerState.createSubscription, BrokerState.deleteSubscription]

/-- A sample world in which everything succeeds: dotenv loads, level strings
never parse, the address resolves, the first dial succeeds, the client is
created and no broker call errors. -/
def okWorld : World :=
  { dotenvOk := true, parseLevel := fun _ => none, resolveOk := true,
    dial := fun _ => true, clientOk := true, err := fun _ => false }

/-- A sample environment with all five required values set. -/
def sampleEnv : Env :=
  { env := "", logLevel := "", emulatorHost := "localhost:8085",
    projectID := "p", topicID := "t", subID := "s", dltID := "d" }

/-- C1: for every initial broker state, if `main` runs to completion without
a fatal error, the final broker state contains the main topic (`topicID`),
the dead-letter topic (`dltID`), and the subscription `subID` as a pull
subscription whose dead-letter policy references the dead-letter topic's
fully qualified name. -/
theorem main_ok_ensures_topics_and_subscription (w : World) (e : Env) (b : BrokerState)
    (h : (runMain w e b).1 = .ok) :
    e.dltID ∈ (runMain w e b).2.1.topics ∧
    e.topicID ∈ (runMain w e b).2.1.topics ∧
    subLookup e.subID (runMain w e b).2.1.subs = some (freshSubConfig e) := by
  obtain ⟨hb, hstate⟩ := runMain_ok_inv h
  obtain ⟨hd, ht, rest, hsubs, _⟩ := brokerPhase_ok_post hb
  rw [hstate]
  refine ⟨hd, ht, ?_⟩
  rw [hsubs]
  exact subLookup_cons_self e.subID (freshSubConfig e) rest

/-- Witness for C1 on a concrete run from the empty broker. -/
theorem main_ok_ensures_topics_and_subscription_witness :
    (runMain okWorld sampleEnv ⟨[], []⟩).1 = .ok ∧
    (sampleEnv.dltID ∈ (runMain okWorld sampleEnv ⟨[], []⟩).2.1.topics ∧
     sampleEnv.topicID ∈ (runMain okWorld sampleEnv ⟨[], []⟩).2.1.topics ∧
     subLookup sampleEnv.subID (runMain okWorld sampleEnv ⟨[], []⟩).2.1.subs =
       some (freshSubConfig sampleEnv)) :=
  ⟨by decide, main_ok_ensures_topics_and_subscription okWorld sampleEnv ⟨[], []⟩ (by decide)⟩

theorem removeSub_cons_self (id : String) (c : SubscriptionConfig)
    (rest : List (String × SubscriptionConfig)) :
    removeSub id ((id, c) :: rest) = removeSub id rest := by
  simp [removeSub]

/-- C5: provisioning is idempotent on the broker state: if running `main`
twice in a row both times ends without a fatal error, the second run leaves
the broker exactly as the first run left it. -/
theorem main_idempotent (w : World) (e : Env) (b : BrokerState)
    (h1 : (runMain w e b).1 = .ok)
    (h2 : (runMain w e (runMain w e b).2.1).1 = .ok) :
    (runMain w e (runMain w e b).2.1).2.1 = (runMain w e b).2.1 := by
  obtain ⟨hb1, hst1⟩ := runMain_ok_inv h1
  obtain ⟨hd, ht, rest, hsubs, hrest⟩ := brokerPhase_ok_post hb1
  rw [hst1] at h2 ⊢
  obtain ⟨hb2, hst2⟩ := runMain_ok_inv h2
  rw [hst2]
  obtain ⟨b1, evs1, b2, evs2, g1, g2, gs, geq⟩ := brokerPhase_ok_inv hb2
  have hb1eq : b1 = (brokerPhase w.err e b).2.1 := by
    rcases ensureTopic_ok_inv g1 with ⟨_, hbq, _⟩ | ⟨hnm, _, _⟩
    · exact hbq
    · exact absurd hd hnm
  subst hb1eq
  have hb2eq : b2 = (brokerPhase w.err e b).2.1 := by
    rcases ensureTopic_ok_inv g2 with ⟨_, hbq, _⟩ | ⟨hnm, _, _⟩
    · exact hbq
    · exact absurd ht hnm
  subst hb2eq
  rw [geq]
  rcases subscriptionPhase_ok_inv gs with ⟨hx, hq⟩ | ⟨hx, hq⟩
  · rw [hq]
    simp only [BrokerState.createSubscription, BrokerState.deleteSubscription, hsubs,
      removeSub_cons_self, removeSub_of_lookup_none e.subID rest hrest]
    rw [← hsubs]
  · rw [hsubs, subLookup_cons_self] at hx
    simp at hx

/-- Witness for C5 on a concrete double run from the empty broker. -/
theorem main_idempotent_witness :
    ((runMain okWorld sampleEnv ⟨[], []⟩).1 = .ok ∧
     (runMain okWorld sampleEnv (runMain okWorld sampleEnv ⟨[], []⟩).2.1).1 = .ok) ∧
    (runMain okWorld sampleEnv (runMain okWorld sampleEnv ⟨[], []⟩).2.1).2.1 =
      (runMain okWorld sampleEnv ⟨[], []⟩).2.1 :=
  ⟨⟨by decide, by decide⟩,
    main_idempotent okWorld sampleEnv ⟨[], []⟩ (by decide) (by decide)⟩

theorem ensureTopic_ok_subs {err : BrokerOp → Bool} {id : String} {b b1 : BrokerState}
    {evs : List Event} (h : ensureTopic err id b = (.ok, b1, evs)) :
    b1.subs = b.subs := by
  rcases ensureTopic_ok_inv h with ⟨_, hbq, _⟩ | ⟨_, hbq, _⟩
  · rw [hbq]
  · rw [hbq]; simp [BrokerState.createTopic]

theorem brokerOps_waitFor (dial : Nat → Bool) (timeout : Nat) :
    brokerOps (waitForPubSubEmulator dial timeout).2 = [] :=
  brokerOps_waitAttempts dial (waitTimeoutMsg timeout) (timeout / 2 + 1) 0

theorem runMain_ok_trace {w : World} {e : Env} {b : BrokerState}
    (h : (runMain w e b).1 = .ok) :
    ∃ pre trW, (pre = ([] : List Event) ∨ pre = [.logWarn]) ∧
      waitForPubSubEmulator w.dial 30 = (.ok (), trW) ∧
      runMain w e b =
        ((brokerPhase w.err e b).1, (brokerPhase w.err e b).2.1,
          pre ++ trW ++ .clientCreated :: (brokerPhase w.err e b).2.2) := by
  rcases runMain_cases w e b with hq | ⟨pre, hpre, hq | hq | ⟨msg, trW, hwp, hq⟩ |
    ⟨trW, hwp, hq | hq⟩⟩
  · rw [hq] at h; simp at h
  · rw [hq] at h; simp at h
  · rw [hq] at h; simp at h
  · rw [hq] at h; simp at h
  · rw [hq] at h; simp at h
  · exact ⟨pre, trW, hpre, hwp, hq⟩

/-- C2: if the subscription already exists, a successful run deletes it
before recreating it — the broker-call sequence ends with the existence
check, the deletion and the creation, in that order — and the final
subscription carries exactly the freshly constructed configuration,
whatever configuration the pre-existing subscription had. -/
theorem sub_deleted_and_recreated_fresh (w : World) (e : Env) (b : BrokerState)
    (hex : (subLookup e.subID b.subs).isSome = true)
    (h : (runMain w e b).1 = .ok) :
    (∃ pre, brokerOps (runMain w e b).2.2 =
        pre ++ [.existsSub e.subID, .deleteSub e.subID,
          .createSub e.subID (freshSubConfig e)]) ∧
    subLookup e.subID (runMain w e b).2.1.subs = some (freshSubConfig e) := by
  obtain ⟨hb, hst⟩ := runMain_ok_inv h
  constructor
  · obtain ⟨pre0, trW, hpre0, hw, hr⟩ := runMain_ok_trace h
    obtain ⟨b1, evs1, b2, evs2, g1, g2, gs, geq⟩ := brokerPhase_ok_inv hb
    have hx : (subLookup e.subID b2.subs).isSome = true := by
      rw [ensureTopic_ok_subs g2, ensureTopic_ok_subs g1]
      exact hex
    rcases subscriptionPhase_ok_inv gs with ⟨_, hq⟩ | ⟨hx2, hq⟩
    · refine ⟨brokerOps (evs1 ++ evs2), ?_⟩
      rw [hr]
      have htrW : brokerOps trW = [] := by
        have := congrArg Prod.snd hw
        simp only at this
        rw [← this]
        exact brokerOps_waitFor w.dial 30
      rw [geq, hq]
      simp only [brokerOps_append]
      have hpre0ops : brokerOps pre0 = [] := by
        rcases hpre0 with hp | hp <;> rw [hp] <;> rfl
      rw [hpre0ops, htrW]
      simp [brokerOps]
    · rw [hx] at hx2
      simp at hx2
  · obtain ⟨_, _, rest, hsubsF, _⟩ := brokerPhase_ok_post hb
    rw [hst, hsubsF]
    exact subLookup_cons_self e.subID (freshSubConfig e) rest

/-- A pre-existing subscription whose configuration differs from the fresh
one in every field, including a push endpoint. -/
def staleSubConfig : SubscriptionConfig :=
  { topic := "old-topic", deadLetterPolicy := none, ackDeadlineSeconds := 5,
    pushEndpoint := some "http://old-endpoint" }

/-- Witness for C2 on a concrete run whose initial broker already holds the
subscription with a stale configuration. -/
theorem sub_deleted_and_recreated_fresh_witness :
    ((subLookup sampleEnv.subID (BrokerState.mk [] [("s", staleSubConfig)]).subs).isSome =
        true ∧
      (runMain okWorld sampleEnv ⟨[], [("s", staleSubConfig)]⟩).1 = .ok) ∧
    ((∃ pre, brokerOps (runMain okWorld sampleEnv ⟨[], [("s", staleSubConfig)]⟩).2.2 =
        pre ++ [.existsSub sampleEnv.subID, .deleteSub sampleEnv.subID,
          .createSub sampleEnv.subID (freshSubConfig sampleEnv)]) ∧
      subLookup sampleEnv.subID
          (runMain okWorld sampleEnv ⟨[], [("s", staleSubConfig)]⟩).2.1.subs =
        some (freshSubConfig sampleEnv)) :=
  ⟨⟨by decide, by decide⟩,
    sub_deleted_and_recreated_fresh okWorld sampleEnv ⟨[], [("s", staleSubConfig)]⟩
      (by decide) (by decide)⟩

/-! ### Event shapes of the phases -/

theorem ensureTopic_events (err : BrokerOp → Bool) (id : String) (b : BrokerState) :
    ∀ ev ∈ (ensureTopic err id b).2.2,
      ev = .brokerOp (.existsTopic id) ∨ ev = .brokerOp (.createTopic id) ∨
      ev = .logWarn := by
  rcases ensureTopic_cases err id b with ⟨_, hq⟩ | ⟨_, _, hq⟩ | ⟨_, _, _, hq⟩ |
    ⟨_, _, _, hq⟩ <;> rw [hq] <;> intro ev hev <;> simp at hev <;> tauto

theorem subscriptionPhase_events (err : BrokerOp → Bool) (e : Env) (b : BrokerState) :
    ∀ ev ∈ (subscriptionPhase err e b).2.2,
      ev = .brokerOp (.existsSub e.subID) ∨ ev = .brokerOp (.deleteSub e.subID) ∨
      ev = .brokerOp (.createSub e.subID (freshSubConfig e)) ∨ ev = .logWarn := by
  rcases subscriptionPhase_cases err e b with ⟨_, hq⟩ | ⟨_, _, _, hq⟩ | ⟨_, _, _, _, hq⟩ |
    ⟨_, _, _, _, hq⟩ | ⟨_, _, _, hq⟩ | ⟨_, _, _, hq⟩ <;> rw [hq] <;> intro ev hev <;>
    simp at hev <;> tauto

theorem waitAttempts_events (dial : Nat → Bool) (msg : String) :
    ∀ n k, ∀ ev ∈ (waitAttempts dial msg n k).2,
      ev = .dialAttempt true ∨ ev = .dialAttempt false ∨ ev = .connClosed ∨
      ev = .slept 2 := by
  intro n
  induction n with
  | zero => intro k ev hev; simp [waitAttempts] at hev
  | succ m ih =>
    intro k ev hev
    by_cases h : dial k
    · simp [waitAttempts, h] at hev
      tauto
    · simp only [waitAttempts, h, Bool.false_eq_true, if_false, List.mem_cons] at hev
      rcases hev with rfl | rfl | hev
      · tauto
      · tauto
      · exact ih (k + 1) ev hev

/-! ### Topic-list monotonicity -/

theorem ensureTopic_topics_mono (err : BrokerOp → Bool) (id : String) {b : BrokerState}
    {tid : String} (h : tid ∈ b.topics) :
    tid ∈ (ensureTopic err id b).2.1.topics := by
  rcases ensureTopic_cases err id b with ⟨_, hq⟩ | ⟨_, _, hq⟩ | ⟨_, _, _, hq⟩ |
    ⟨_, _, _, hq⟩ <;> rw [hq] <;> simp [BrokerState.createTopic, h]

theorem subscriptionPhase_topics_eq (err : BrokerOp → Bool) (e : Env) (b : BrokerState) :
    (subscriptionPhase err e b).2.1.topics = b.topics := by
  rcases subscriptionPhase_cases err e b with ⟨_, hq⟩ | ⟨_, _, _, hq⟩ | ⟨_, _, _, _, hq⟩ |
    ⟨_, _, _, _, hq⟩ | ⟨_, _, _, hq⟩ | ⟨_, _, _, hq⟩ <;> rw [hq] <;>
    simp [BrokerState.createSubscription, BrokerState.deleteSubscription]

theorem brokerPhase_topics_mono {err : BrokerOp → Bool} {e : Env} {b : BrokerState}
    {tid : String} (h : tid ∈ b.topics) :
    tid ∈ (brokerPhase err e b).2.1.topics := by
  rcases h1 : ensureTopic err e.dltID b with ⟨st1, b1, evs1⟩
  have hm1 : tid ∈ b1.topics := by
    have := ensureTopic_topics_mono err e.dltID h
    rw [h1] at this
    exact this
  cases st1 with
  | fatal k => rw [brokerPhase_eq_fatal1 h1]; exact hm1
  | ok =>
    rcases h2 : ensureTopic err e.topicID b1 with ⟨st2, b2, evs2⟩
    have hm2 : tid ∈ b2.topics := by
      have := ensureTopic_topics_mono err e.topicID hm1
      rw [h2] at this
      exact this
    cases st2 with
    | fatal k => rw [brokerPhase_eq_fatal2 h1 h2]; exact hm2
    | ok =>
      rw [brokerPhase_eq_sub h1 h2]
      simp only
      rw [subscriptionPhase_topics_eq]
      exact hm2

theorem runMain_topics_mono (w : World) (e : Env) (b : BrokerState) (tid : String)
    (h : tid ∈ b.topics) : tid ∈ (runMain w e b).2.1.topics := by
  rcases runMain_cases w e b with hq | ⟨pre, hpre, hq | hq | ⟨msg, trW, hwp, hq⟩ |
    ⟨trW, hwp, hq | hq⟩⟩ <;> rw [hq] <;> simp only <;>
    first | exact h | exact brokerPhase_topics_mono h

theorem waitFor_events (dial : Nat → Bool) (timeout : Nat) :
    ∀ ev ∈ (waitForPubSubEmulator dial timeout).2,
      ev = .dialAttempt true ∨ ev = .dialAttempt false ∨ ev = .connClosed ∨
      ev = .slept 2 :=
  waitAttempts_events dial (waitTimeoutMsg timeout) (timeout / 2 + 1) 0

theorem brokerPhase_events (err : BrokerOp → Bool) (e : Env) (b : BrokerState) :
    ∀ ev ∈ (brokerPhase err e b).2.2,
      (∃ t, ev = .brokerOp (.existsTopic t) ∨ ev = .brokerOp (.createTopic t)) ∨
      ev = .brokerOp (.existsSub e.subID) ∨ ev = .brokerOp (.deleteSub e.subID) ∨
      ev = .brokerOp (.createSub e.subID (freshSubConfig e)) ∨ ev = .logWarn := by
  intro ev hev
  rcases h1 : ensureTopic err e.dltID b with ⟨st1, b1, evs1⟩
  have he1 := ensureTopic_events err e.dltID b
  rw [h1] at he1
  cases st1 with
  | fatal k =>
    rw [brokerPhase_eq_fatal1 h1] at hev
    simp only at hev
    rcases he1 ev hev with rfl | rfl | rfl
    · exact Or.inl ⟨e.dltID, Or.inl rfl⟩
    · exact Or.inl ⟨e.dltID, Or.inr rfl⟩
    · tauto
  | ok =>
    rcases h2 : ensureTopic err e.topicID b1 with ⟨st2, b2, evs2⟩
    have he2 := ensureTopic_events err e.topicID b1
    rw [h2] at he2
    cases st2 with
    | fatal k =>
      rw [brokerPhase_eq_fatal2 h1 h2] at hev
      simp only [List.mem_append] at hev
      rcases hev with hev | hev
      · rcases he1 ev hev with rfl | rfl | rfl
        · exact Or.inl ⟨e.dltID, Or.inl rfl⟩
        · exact Or.inl ⟨e.dltID, Or.inr rfl⟩
        · tauto
      · rcases he2 ev hev with rfl | rfl | rfl
        · exact Or.inl ⟨e.topicID, Or.inl rfl⟩
        · exact Or.inl ⟨e.topicID, Or.inr rfl⟩
        · tauto
    | ok =>
      rw [brokerPhase_eq_sub h1 h2] at hev
      simp only [List.mem_append] at hev
      rcases hev with (hev | hev) | hev
      · rcases he1 ev hev with rfl | rfl | rfl
        · exact Or.inl ⟨e.dltID, Or.inl rfl⟩
        · exact Or.inl ⟨e.dltID, Or.inr rfl⟩
        · tauto
      · rcases he2 ev hev with rfl | rfl | rfl
        · exact Or.inl ⟨e.topicID, Or.inl rfl⟩
        · exact Or.inl ⟨e.topicID, Or.inr rfl⟩
        · tauto
      · have := subscriptionPhase_events err e b2 ev hev
        tauto

theorem deleteTopic_notin_runMain (w : World) (e : Env) (b : BrokerState) (tid : String) :
    Event.brokerOp (.deleteTopic tid) ∉ (runMain w e b).2.2 := by
  intro hmem
  rcases runMain_cases w e b with hq | ⟨pre, hpre, hq | hq | ⟨msg, trW, hwp, hq⟩ |
    ⟨trW, hwp, hq | hq⟩⟩ <;> rw [hq] at hmem <;> simp only [List.mem_append,
      List.mem_cons] at hmem
  · simp at hmem
  · rcases hpre with rfl | rfl <;> simp at hmem
  · rcases hpre with rfl | rfl <;> simp at hmem
  · have htrW : trW = (waitForPubSubEmulator w.dial 30).2 := by rw [hwp]
    rcases hmem with hmem | hmem
    · rcases hpre with rfl | rfl <;> simp at hmem
    · rw [htrW] at hmem
      have := waitFor_events w.dial 30 _ hmem
      simp at this
  · have htrW : trW = (waitForPubSubEmulator w.dial 30).2 := by rw [hwp]
    rcases hmem with hmem | hmem
    · rcases hpre with rfl | rfl <;> simp at hmem
    · rw [htrW] at hmem
      have := waitFor_events w.dial 30 _ hmem
      simp at this
  · have htrW : trW = (waitForPubSubEmulator w.dial 30).2 := by rw [hwp]
    rcases hmem with (hmem | hmem) | hmem | hmem
    · rcases hpre with rfl | rfl <;> simp at hmem
    · rw [htrW] at hmem
      have := waitFor_events w.dial 30 _ hmem
      simp at this
    · simp at hmem
    · have := brokerPhase_events w.err e b _ hmem
      rcases this with ⟨t, h' | h'⟩ | h' | h' | h' | h' <;> simp at h'

/-- C3: each topic-provisioning step checks existence first; when the topic
already exists the step warns and issues no create call, leaving the state
untouched, and when it is absent the step creates the topic.  Moreover no
run ever issues a topic deletion, and every initially existing topic is
still present in the final broker state. -/
theorem topic_steps_check_create_warn (err : BrokerOp → Bool) (id : String)
    (b : BrokerState) (w : World) (e : Env) (b0 : BrokerState) :
    (err (.existsTopic id) = false → id ∈ b.topics →
      ensureTopic err id b = (.ok, b, [.brokerOp (.existsTopic id), .logWarn])) ∧
    (err (.existsTopic id) = false → id ∉ b.topics → err (.createTopic id) = false →
      ensureTopic err id b =
        (.ok, b.createTopic id,
          [.brokerOp (.existsTopic id), .brokerOp (.createTopic id)])) ∧
    (∀ tid, Event.brokerOp (.deleteTopic tid) ∉ (runMain w e b0).2.2) ∧
    (∀ tid, tid ∈ b0.topics → tid ∈ (runMain w e b0).2.1.topics) := by
  refine ⟨?_, ?_, fun tid => deleteTopic_notin_runMain w e b0 tid,
    fun tid h => runMain_topics_mono w e b0 tid h⟩
  · intro h1 h2
    simp [ensureTopic, h1, h2]
  · intro h1 h2 h3
    simp [ensureTopic, h1, h2, h3]

/-- Witness for C3: both step shapes at concrete states, plus the global
facts on a concrete run. -/
theorem topic_steps_check_create_warn_witness :
    ensureTopic (fun _ => false) "a" ⟨["a"], []⟩ =
      (.ok, ⟨["a"], []⟩, [.brokerOp (.existsTopic "a"), .logWarn]) ∧
    ensureTopic (fun _ => false) "a" ⟨[], []⟩ =
      (.ok, BrokerState.createTopic ⟨[], []⟩ "a",
        [.brokerOp (.existsTopic "a"), .brokerOp (.createTopic "a")]) ∧
    Event.brokerOp (.deleteTopic "d") ∉ (runMain okWorld sampleEnv ⟨["x"], []⟩).2.2 ∧
    "x" ∈ (runMain okWorld sampleEnv ⟨["x"], []⟩).2.1.topics :=
  ⟨(topic_steps_check_create_warn (fun _ => false) "a" ⟨["a"], []⟩ okWorld sampleEnv
      ⟨["x"], []⟩).1 rfl (by decide),
   (topic_steps_check_create_warn (fun _ => false) "a" ⟨[], []⟩ okWorld sampleEnv
      ⟨["x"], []⟩).2.1 rfl (by decide) rfl,
   (topic_steps_check_create_warn (fun _ => false) "a" ⟨[], []⟩ okWorld sampleEnv
      ⟨["x"], []⟩).2.2.1 "d",
   (topic_steps_check_create_warn (fun _ => false) "a" ⟨[], []⟩ okWorld sampleEnv
      ⟨["x"], []⟩).2.2.2 "x" (by decide)⟩

/-! ### Behaviour of the poll loop -/

theorem waitAttempts_all_fail (dial : Nat → Bool) (msg : String) :
    ∀ n k, (∀ i, i < n → dial (k + i) = false) →
      waitAttempts dial msg n k = (.error msg, failEvents n) := by
  intro n
  induction n with
  | zero => intro k _; rfl
  | succ m ih =>
    intro k h
    have h0 : dial k = false := by simpa using h 0 (Nat.succ_pos m)
    have hrec := ih (k + 1) fun i hi => by
      have := h (i + 1) (Nat.succ_lt_succ hi)
      simpa [Nat.add_assoc, Nat.add_comm 1 i] using this
    simp [waitAttempts, h0, hrec, failEvents]

theorem waitAttempts_first_success (dial : Nat → Bool) (msg : String) :
    ∀ n k j, j < n → dial (k + j) = true → (∀ i, i < j → dial (k + i) = false) →
      waitAttempts dial msg n k =
        (.ok (), failEvents j ++ [.dialAttempt true, .connClosed]) := by
  intro n
  induction n with
  | zero => intro k j hj; exact absurd hj (Nat.not_lt_zero j)
  | succ m ih =>
    intro k j hj hsucc hfail
    cases j with
    | zero =>
      have h0 : dial k = true := by simpa using hsucc
      simp [waitAttempts, h0, failEvents]
    | succ j' =>
      have h0 : dial k = false := by simpa using hfail 0 (Nat.succ_pos j')
      have hrec := ih (k + 1) j' (Nat.lt_of_succ_lt_succ hj)
        (by simpa [Nat.add_assoc, Nat.add_comm 1 j'] using hsucc)
        (fun i hi => by
          have := hfail (i + 1) (Nat.succ_lt_succ hi)
          simpa [Nat.add_assoc, Nat.add_comm 1 i] using this)
      simp [waitAttempts, h0, hrec, failEvents]

theorem waitAttempts_trace_len (dial : Nat → Bool) (msg : String) :
    ∀ n k, ((waitAttempts dial msg n k).2).length ≤ 2 * n := by
  intro n
  induction n with
  | zero => intro k; simp [waitAttempts]
  | succ m ih =>
    intro k
    by_cases h : dial k
    · simp [waitAttempts, h]
    · simp only [waitAttempts, h, Bool.false_eq_true, if_false, List.length_cons]
      have := ih (k + 1)
      omega

/-- C4: the poll loop returns success exactly at the earliest dial attempt
that succeeds within the deadline (closing the probe connection), sleeping
2 seconds after every failed dial; when no attempt within the deadline
succeeds — the attempts happen at `start + 2*i` for `i ≤ timeout / 2`,
since the deadline is start time plus the timeout — it stops and returns
the timeout error.  The loop is total by construction, and its trace
(hence its number of dial attempts) is bounded by the timeout budget. -/
theorem waitForPubSubEmulator_spec (dial : Nat → Bool) (timeout : Nat) :
    (∀ j, j ≤ timeout / 2 → dial j = true → (∀ i, i < j → dial i = false) →
      waitForPubSubEmulator dial timeout =
        (.ok (), failEvents j ++ [.dialAttempt true, .connClosed])) ∧
    ((∀ i, i ≤ timeout / 2 → dial i = false) →
      waitForPubSubEmulator dial timeout =
        (.error (waitTimeoutMsg timeout), failEvents (timeout / 2 + 1))) ∧
    ((waitForPubSubEmulator dial timeout).2).length ≤ 2 * (timeout / 2 + 1) := by
  refine ⟨?_, ?_, waitAttempts_trace_len dial (waitTimeoutMsg timeout) (timeout / 2 + 1) 0⟩
  · intro j hj hsucc hfail
    have := waitAttempts_first_success dial (waitTimeoutMsg timeout) (timeout / 2 + 1) 0 j
      (Nat.lt_succ_of_le hj) (by simpa using hsucc) (fun i hi => by simpa using hfail i hi)
    exact this
  · intro h
    exact waitAttempts_all_fail dial (waitTimeoutMsg timeout) (timeout / 2 + 1) 0
      fun i hi => by simpa using h i (Nat.lt_succ_iff.mp hi)

/-- Witness for C4: a dial that succeeds on the third attempt, and a dial
that never succeeds, both with the program's 30-second timeout. -/
theorem waitForPubSubEmulator_spec_witness :
    waitForPubSubEmulator (fun k => k == 2) 30 =
      (.ok (), failEvents 2 ++ [.dialAttempt true, .connClosed]) ∧
    waitForPubSubEmulator (fun _ => false) 30 =
      (.error (waitTimeoutMsg 30), failEvents (30 / 2 + 1)) :=
  ⟨(waitForPubSubEmulator_spec (fun k => k == 2) 30).1 2 (by decide) (by decide)
      (by decide),
   (waitForPubSubEmulator_spec (fun _ => false) 30).2.1 (by decide)⟩

/-! ### Which calls fail, and where a run halts -/

theorem ensureTopic_ok_errs {err : BrokerOp → Bool} {id : String} {b b1 : BrokerState}
    {evs : List Event} (h : ensureTopic err id b = (.ok, b1, evs)) :
    ∀ o ∈ brokerOps evs, err o = false := by
  rcases ensureTopic_cases err id b with ⟨h1, hq⟩ | ⟨h1, hm, hq⟩ | ⟨h1, hm, h3, hq⟩ |
    ⟨h1, hm, h3, hq⟩ <;> rw [hq] at h <;>
    simp only [Prod.mk.injEq] at h
  · simp at h
  · obtain ⟨-, -, rfl⟩ := h
    intro o ho
    simp [brokerOps] at ho
    rw [ho]
    exact h1
  · simp at h
  · obtain ⟨-, -, rfl⟩ := h
    intro o ho
    simp [brokerOps] at ho
    rcases ho with rfl | rfl
    · exact h1
    · exact h3

theorem ensureTopic_fatal_errs {err : BrokerOp → Bool} {id : String} {b b1 : BrokerState}
    {evs : List Event} {k : ExitKind} (h : ensureTopic err id b = (.fatal k, b1, evs)) :
    ∃ op, k = .brokerCall op ∧ err op = true ∧
      ∃ l, brokerOps evs = l ++ [op] ∧ ∀ o ∈ l, err o = false := by
  rcases ensureTopic_cases err id b with ⟨h1, hq⟩ | ⟨h1, hm, hq⟩ | ⟨h1, hm, h3, hq⟩ |
    ⟨h1, hm, h3, hq⟩ <;> rw [hq] at h <;>
    simp only [Prod.mk.injEq, ExitStatus.fatal.injEq] at h
  · obtain ⟨hk, -, rfl⟩ := h
    refine ⟨.existsTopic id, hk.symm, h1, [], by simp [brokerOps], by simp⟩
  · simp at h
  · obtain ⟨hk, -, rfl⟩ := h
    refine ⟨.createTopic id, hk.symm, h3, [.existsTopic id], by simp [brokerOps], ?_⟩
    intro o ho
    simp at ho
    rw [ho]
    exact h1
  · simp at h

theorem subscriptionPhase_ok_errs {err : BrokerOp → Bool} {e : Env} {b b1 : BrokerState}
    {evs : List Event} (h : subscriptionPhase err e b = (.ok, b1, evs)) :
    ∀ o ∈ brokerOps evs, err o = false := by
  rcases subscriptionPhase_cases err e b with ⟨h1, hq⟩ | ⟨h1, h2, h3, hq⟩ |
    ⟨h1, h2, h3, h4, hq⟩ | ⟨h1, h2, h3, h4, hq⟩ | ⟨h1, h2, h4, hq⟩ | ⟨h1, h2, h4, hq⟩ <;>
    rw [hq] at h <;> simp only [Prod.mk.injEq] at h
  · simp at h
  · simp at h
  · simp at h
  · obtain ⟨-, -, rfl⟩ := h
    intro o ho
    simp [brokerOps] at ho
    rcases ho with rfl | rfl | rfl
    · exact h1
    · exact h3
    · exact h4
  · simp at h
  · obtain ⟨-, -, rfl⟩ := h
    intro o ho
    simp [brokerOps] at ho
    rcases ho with rfl | rfl
    · exact h1
    · exact h4

theorem subscriptionPhase_fatal_errs {err : BrokerOp → Bool} {e : Env} {b b1 : BrokerState}
    {evs : List Event} {k : ExitKind}
    (h : subscriptionPhase err e b = (.fatal k, b1, evs)) :
    ∃ op, k = .brokerCall op ∧ err op = true ∧
      ∃ l, brokerOps evs = l ++ [op] ∧ ∀ o ∈ l, err o = false := by
  rcases subscriptionPhase_cases err e b with ⟨h1, hq⟩ | ⟨h1, h2, h3, hq⟩ |
    ⟨h1, h2, h3, h4, hq⟩ | ⟨h1, h2, h3, h4, hq⟩ | ⟨h1, h2, h4, hq⟩ | ⟨h1, h2, h4, hq⟩ <;>
    rw [hq] at h <;> simp only [Prod.mk.injEq, ExitStatus.fatal.injEq] at h
  · obtain ⟨hk, -, rfl⟩ := h
    exact ⟨.existsSub e.subID, hk.symm, h1, [], by simp [brokerOps], by simp⟩
  · obtain ⟨hk, -, rfl⟩ := h
    refine ⟨.deleteSub e.subID, hk.symm, h3, [.existsSub e.subID],
      by simp [brokerOps], ?_⟩
    intro o ho
    simp at ho
    rw [ho]
    exact h1
  · obtain ⟨hk, -, rfl⟩ := h
    refine ⟨.createSub e.subID (freshSubConfig e), hk.symm, h4,
      [.existsSub e.subID, .deleteSub e.subID], by simp [brokerOps], ?_⟩
    intro o ho
    simp at ho
    rcases ho with rfl | rfl
    · exact h1
    · exact h3
  · simp at h
  · obtain ⟨hk, -, rfl⟩ := h
    refine ⟨.createSub e.subID (freshSubConfig e), hk.symm, h4,
      [.existsSub e.subID], by simp [brokerOps], ?_⟩
    intro o ho
    simp at ho
    rw [ho]
    exact h1
  · simp at h

theorem brokerPhase_ok_errs {err : BrokerOp → Bool} {e : Env} {b : BrokerState}
    (h : (brokerPhase err e b).1 = .ok) :
    ∀ o ∈ brokerOps (brokerPhase err e b).2.2, err o = false := by
  obtain ⟨b1, evs1, b2, evs2, g1, g2, gs, geq⟩ := brokerPhase_ok_inv h
  rw [geq]
  simp only [brokerOps_append, List.mem_append]
  intro o ho
  rcases ho with (ho | ho) | ho
  · exact ensureTopic_ok_errs g1 o ho
  · exact ensureTopic_ok_errs g2 o ho
  · rcases hs : subscriptionPhase err e b2 with ⟨st3, b3, evs3⟩
    rw [hs] at ho gs
    simp only at ho gs
    subst gs
    exact subscriptionPhase_ok_errs hs o ho

theorem brokerPhase_fatal_errs {err : BrokerOp → Bool} {e : Env} {b : BrokerState}
    {k : ExitKind} (h : (brokerPhase err e b).1 = .fatal k) :
    ∃ op, k = .brokerCall op ∧ err op = true ∧
      ∃ l, brokerOps (brokerPhase err e b).2.2 = l ++ [op] ∧ ∀ o ∈ l, err o = false := by
  rcases h1 : ensureTopic err e.dltID b with ⟨st1, b1, evs1⟩
  cases st1 with
  | fatal k1 =>
    have hbp := brokerPhase_eq_fatal1 h1
    rw [hbp] at h ⊢
    have hk1 : k1 = k := by simpa using h
    subst hk1
    simpa using ensureTopic_fatal_errs h1
  | ok =>
    rcases h2 : ensureTopic err e.topicID b1 with ⟨st2, b2, evs2⟩
    cases st2 with
    | fatal k2 =>
      have hbp := brokerPhase_eq_fatal2 h1 h2
      rw [hbp] at h ⊢
      have hk2 : k2 = k := by simpa using h
      subst hk2
      obtain ⟨op, hk, he, l, hl, hlf⟩ := ensureTopic_fatal_errs h2
      refine ⟨op, hk, he, brokerOps evs1 ++ l, ?_, ?_⟩
      · simp [brokerOps_append, hl]
      · intro o ho
        rcases List.mem_append.mp ho with ho | ho
        · exact ensureTopic_ok_errs h1 o ho
        · exact hlf o ho
    | ok =>
      have hbp := brokerPhase_eq_sub h1 h2
      rw [hbp] at h ⊢
      simp only at h ⊢
      rcases hs : subscriptionPhase err e b2 with ⟨st3, b3, evs3⟩
      rw [hs] at h
      simp only at h ⊢
      cases st3 with
      | ok => simp at h
      | fatal k3 =>
        have hk3 : k3 = k := by simpa using h
        subst hk3
        obtain ⟨op, hk, he, l, hl, hlf⟩ := subscriptionPhase_fatal_errs hs
        refine ⟨op, hk, he, brokerOps evs1 ++ brokerOps evs2 ++ l, ?_, ?_⟩
        · simp [brokerOps_append, hl]
        · intro o ho
          rcases List.mem_append.mp ho with ho | ho
          · rcases List.mem_append.mp ho with ho | ho
            · exact ensureTopic_ok_errs h1 o ho
            · exact ensureTopic_ok_errs h2 o ho
          · exact hlf o ho

theorem runMain_ok_errs {w : World} {e : Env} {b : BrokerState}
    (h : (runMain w e b).1 = .ok) :
    ∀ o ∈ brokerOps (runMain w e b).2.2, w.err o = false := by
  obtain ⟨pre, trW, hpre, hw, hr⟩ := runMain_ok_trace h
  have hb : (brokerPhase w.err e b).1 = .ok := (runMain_ok_inv h).1
  rw [hr]
  have hpre0 : brokerOps pre = [] := by rcases hpre with rfl | rfl <;> rfl
  have htrW : brokerOps trW = [] := by
    have hsnd : trW = (waitForPubSubEmulator w.dial 30).2 := by rw [hw]
    rw [hsnd]
    exact brokerOps_waitFor w.dial 30
  simp only [brokerOps_append, hpre0, htrW, List.nil_append]
  intro o ho
  have ho' : o ∈ brokerOps (brokerPhase w.err e b).2.2 := by
    simpa [brokerOps] using ho
  exact brokerPhase_ok_errs hb o ho'

theorem runMain_fatal_broker_inv {w : World} {e : Env} {b : BrokerState} {op : BrokerOp}
    (h : (runMain w e b).1 = .fatal (.brokerCall op)) :
    (brokerPhase w.err e b).1 = .fatal (.brokerCall op) ∧
    brokerOps (runMain w e b).2.2 = brokerOps (brokerPhase w.err e b).2.2 := by
  rcases runMain_cases w e b with hq | ⟨pre, hpre, hq | hq | ⟨msg, trW, hwp, hq⟩ |
    ⟨trW, hwp, hq | hq⟩⟩ <;> rw [hq] at h ⊢ <;> simp only at h ⊢
  · simp at h
  · simp at h
  · simp at h
  · simp at h
  · simp at h
  · have hpre0 : brokerOps pre = [] := by rcases hpre with rfl | rfl <;> rfl
    have htrW : brokerOps trW = [] := by
      have hsnd : trW = (waitForPubSubEmulator w.dial 30).2 := by rw [hwp]
      rw [hsnd]
      exact brokerOps_waitFor w.dial 30
    refine ⟨h, ?_⟩
    simp only [brokerOps_append, hpre0, htrW, List.nil_append]
    simp [brokerOps]

theorem mem_brokerOps {o : BrokerOp} {tr : List Event} :
    o ∈ brokerOps tr ↔ Event.brokerOp o ∈ tr := by
  constructor
  · intro h
    simp only [brokerOps, List.mem_filterMap] at h
    obtain ⟨ev, hev, hf⟩ := h
    cases ev <;> simp at hf
    rw [← hf]
    exact hev
  · intro h
    simp only [brokerOps, List.mem_filterMap]
    exact ⟨Event.brokerOp o, h, rfl⟩

/-- Either a run never reaches the broker (its trace holds no broker call),
or the wait succeeded, the client was created, and the trace is a
broker-call-free prelude followed by the client-creation marker and the
broker phase. -/
theorem runMain_trace_split (w : World) (e : Env) (b : BrokerState) :
    (∀ op, Event.brokerOp op ∉ (runMain w e b).2.2) ∨
    ((waitForPubSubEmulator w.dial 30).1 = .ok () ∧
      ∃ t1, (runMain w e b).2.2 =
          t1 ++ Event.clientCreated :: (brokerPhase w.err e b).2.2 ∧
        (∀ op, Event.brokerOp op ∉ t1) ∧
        (runMain w e b).1 = (brokerPhase w.err e b).1 ∧
        (runMain w e b).2.1 = (brokerPhase w.err e b).2.1) := by
  have hno : ∀ (pre trW : List Event), pre = [] ∨ pre = [Event.logWarn] →
      trW = (waitForPubSubEmulator w.dial 30).2 →
      ∀ op, Event.brokerOp op ∉ pre ++ trW := by
    intro pre trW hpre htrW op hmem
    rcases List.mem_append.mp hmem with hmem | hmem
    · rcases hpre with rfl | rfl <;> simp at hmem
    · rw [htrW] at hmem
      have := waitFor_events w.dial 30 _ hmem
      simp at this
  rcases runMain_cases w e b with hq | ⟨pre, hpre, hq | hq | ⟨msg, trW, hwp, hq⟩ |
    ⟨trW, hwp, hq | hq⟩⟩
  · left
    rw [hq]
    intro op hmem
    simp at hmem
  · left
    rw [hq]
    intro op hmem
    rcases hpre with rfl | rfl <;> simp at hmem
  · left
    rw [hq]
    intro op hmem
    rcases hpre with rfl | rfl <;> simp at hmem
  · left
    rw [hq]
    exact hno pre trW hpre (by rw [hwp])
  · left
    rw [hq]
    exact hno pre trW hpre (by rw [hwp])
  · right
    refine ⟨by rw [hwp], pre ++ trW, ?_, hno pre trW hpre (by rw [hwp]), ?_, ?_⟩
    · rw [hq]
    · rw [hq]
    · rw [hq]

/-- C6: every subscription configuration ever passed to a create-subscription
call has no push endpoint — the program only creates pull subscriptions. -/
theorem only_pull_subscriptions (w : World) (e : Env) (b : BrokerState)
    (id : String) (c : SubscriptionConfig)
    (h : Event.brokerOp (.createSub id c) ∈ (runMain w e b).2.2) :
    c.pushEndpoint = none := by
  rcases runMain_trace_split w e b with hsplit | ⟨-, t1, htr, ht1, -, -⟩
  · exact absurd h (hsplit _)
  · rw [htr] at h
    rcases List.mem_append.mp h with h | h
    · exact absurd h (ht1 _)
    · rcases List.mem_cons.mp h with h | h
      · simp at h
      · rcases brokerPhase_events w.err e b _ h with ⟨t, h' | h'⟩ | h' | h' | h' | h'
        · simp at h'
        · simp at h'
        · simp at h'
        · simp at h'
        · simp only [Event.brokerOp.injEq, BrokerOp.createSub.injEq] at h'
          rw [h'.2]
          rfl
        · simp at h'

/-- Witness for C6: the create call of a concrete successful run. -/
theorem only_pull_subscriptions_witness :
    Event.brokerOp (.createSub "s" (freshSubConfig sampleEnv)) ∈
      (runMain okWorld sampleEnv ⟨[], []⟩).2.2 ∧
    (freshSubConfig sampleEnv).pushEndpoint = none :=
  ⟨by decide,
    only_pull_subscriptions okWorld sampleEnv ⟨[], []⟩ "s" (freshSubConfig sampleEnv)
      (by decide)⟩

/-- C7: when any of the five required environment values is empty, the run
aborts fatally with the validation failure (provided the dotenv stage, which
precedes validation, loads), the broker state is untouched, and the trace
holds at most the log-level warning: no dial, no client creation and no
broker call of any kind ever happens. -/
theorem env_validation_blocks_broker (w : World) (e : Env) (b : BrokerState)
    (hempty : e.emulatorHost = "" ∨ e.projectID = "" ∨ e.topicID = "" ∨
      e.subID = "" ∨ e.dltID = "")
    (hdot : e.env = "local" → w.dotenvOk = true) :
    (runMain w e b).1 = .fatal .envNotSet ∧
    (runMain w e b).2.1 = b ∧
    ∀ ev ∈ (runMain w e b).2.2, ev = Event.logWarn := by
  have hd : ¬(e.env = "local" ∧ w.dotenvOk = false) := by
    rintro ⟨h1, h2⟩
    rw [hdot h1] at h2
    exact absurd h2 (by simp)
  have hv := runValidated_env_fail w e b hempty
  rcases runMain_core w e b hd with hc | hc <;> rw [hc, hv] <;>
    exact ⟨rfl, rfl, by simp⟩

/-- A configuration with the project id missing. -/
def emptyProjectEnv : Env :=
  { env := "", logLevel := "", emulatorHost := "localhost:8085",
    projectID := "", topicID := "t", subID := "s", dltID := "d" }

/-- Witness for C7 on a concrete run with an empty project id. -/
theorem env_validation_blocks_broker_witness :
    ((emptyProjectEnv.emulatorHost = "" ∨ emptyProjectEnv.projectID = "" ∨
        emptyProjectEnv.topicID = "" ∨ emptyProjectEnv.subID = "" ∨
        emptyProjectEnv.dltID = "") ∧
      (emptyProjectEnv.env = "local" → okWorld.dotenvOk = true)) ∧
    ((runMain okWorld emptyProjectEnv ⟨[], []⟩).1 = .fatal .envNotSet ∧
      (runMain okWorld emptyProjectEnv ⟨[], []⟩).2.1 = ⟨[], []⟩ ∧
      ∀ ev ∈ (runMain okWorld emptyProjectEnv ⟨[], []⟩).2.2, ev = Event.logWarn) :=
  ⟨⟨by decide, by decide⟩,
    env_validation_blocks_broker okWorld emptyProjectEnv ⟨[], []⟩ (by decide) (by decide)⟩

theorem ensureTopic_fatal_kind {err : BrokerOp → Bool} {id : String} {b b1 : BrokerState}
    {evs : List Event} {k : ExitKind} (h : ensureTopic err id b = (.fatal k, b1, evs)) :
    k = .brokerCall (.existsTopic id) ∨ k = .brokerCall (.createTopic id) := by
  rcases ensureTopic_cases err id b with ⟨_, hq⟩ | ⟨_, _, hq⟩ | ⟨_, _, _, hq⟩ |
    ⟨_, _, _, hq⟩ <;> rw [hq] at h <;> simp only [Prod.mk.injEq,
      ExitStatus.fatal.injEq] at h <;> tauto

theorem brokerPhase_deleteSub_no_createSub {err : BrokerOp → Bool} {e : Env}
    {b : BrokerState}
    (h : (brokerPhase err e b).1 = .fatal (.brokerCall (.deleteSub e.subID))) :
    ∀ c, Event.brokerOp (.createSub e.subID c) ∉ (brokerPhase err e b).2.2 := by
  intro c hmem
  rcases h1 : ensureTopic err e.dltID b with ⟨st1, b1, evs1⟩
  have he1 := ensureTopic_events err e.dltID b
  rw [h1] at he1
  cases st1 with
  | fatal k1 =>
    rw [brokerPhase_eq_fatal1 h1] at hmem
    simp only at hmem
    have := he1 _ hmem
    simp at this
  | ok =>
    rcases h2 : ensureTopic err e.topicID b1 with ⟨st2, b2, evs2⟩
    have he2 := ensureTopic_events err e.topicID b1
    rw [h2] at he2
    cases st2 with
    | fatal k2 =>
      rw [brokerPhase_eq_fatal2 h1 h2] at hmem
      simp only [List.mem_append] at hmem
      rcases hmem with hmem | hmem
      · have := he1 _ hmem
        simp at this
      · have := he2 _ hmem
        simp at this
    | ok =>
      rw [brokerPhase_eq_sub h1 h2] at h hmem
      simp only [List.mem_append] at hmem h
      rcases subscriptionPhase_cases err e b2 with ⟨_, hq⟩ | ⟨_, _, _, hq⟩ |
        ⟨_, _, _, _, hq⟩ | ⟨_, _, _, _, hq⟩ | ⟨_, _, _, hq⟩ | ⟨_, _, _, hq⟩ <;>
        rw [hq] at h hmem <;> simp only at h <;> try simp at h
      rcases hmem with (hmem | hmem) | hmem
      · have := he1 _ hmem
        simp at this
      · have := he2 _ hmem
        simp at this
      · simp at hmem

theorem brokerPhase_topic_fatal_no_sub {err : BrokerOp → Bool} {e : Env}
    {b : BrokerState} {tid : String}
    (h : (brokerPhase err e b).1 = .fatal (.brokerCall (.existsTopic tid)) ∨
      (brokerPhase err e b).1 = .fatal (.brokerCall (.createTopic tid))) :
    Event.brokerOp (.existsSub e.subID) ∉ (brokerPhase err e b).2.2 := by
  intro hmem
  rcases h1 : ensureTopic err e.dltID b with ⟨st1, b1, evs1⟩
  have he1 := ensureTopic_events err e.dltID b
  rw [h1] at he1
  cases st1 with
  | fatal k1 =>
    rw [brokerPhase_eq_fatal1 h1] at hmem
    simp only at hmem
    have := he1 _ hmem
    simp at this
  | ok =>
    rcases h2 : ensureTopic err e.topicID b1 with ⟨st2, b2, evs2⟩
    have he2 := ensureTopic_events err e.topicID b1
    rw [h2] at he2
    cases st2 with
    | fatal k2 =>
      rw [brokerPhase_eq_fatal2 h1 h2] at hmem
      simp only [List.mem_append] at hmem
      rcases hmem with hmem | hmem
      · have := he1 _ hmem
        simp at this
      · have := he2 _ hmem
        simp at this
    | ok =>
      rw [brokerPhase_eq_sub h1 h2] at h
      simp only at h
      rcases subscriptionPhase_cases err e b2 with ⟨_, hq⟩ | ⟨_, _, _, hq⟩ |
        ⟨_, _, _, _, hq⟩ | ⟨_, _, _, _, hq⟩ | ⟨_, _, _, hq⟩ | ⟨_, _, _, hq⟩ <;>
        rw [hq] at h <;> rcases h with h | h <;> simp at h

/-- C8: control flow is fatal-on-error.  A run that ends without a fatal
error had no failing broker call; a run that halts at a failing broker call
issued that call last — every broker call before it succeeded and none
follows it; a run that halts at the subscription deletion never calls
create-subscription; and a run that halts while ensuring a topic never even
reaches the subscription existence check. -/
theorem fatal_on_error_control_flow (w : World) (e : Env) (b : BrokerState) :
    ((runMain w e b).1 = .ok →
      ∀ o ∈ brokerOps (runMain w e b).2.2, w.err o = false) ∧
    (∀ op, (runMain w e b).1 = .fatal (.brokerCall op) →
      w.err op = true ∧
      ∃ l, brokerOps (runMain w e b).2.2 = l ++ [op] ∧ ∀ o ∈ l, w.err o = false) ∧
    ((runMain w e b).1 = .fatal (.brokerCall (.deleteSub e.subID)) →
      ∀ c, Event.brokerOp (.createSub e.subID c) ∉ (runMain w e b).2.2) ∧
    (∀ tid, ((runMain w e b).1 = .fatal (.brokerCall (.existsTopic tid)) ∨
        (runMain w e b).1 = .fatal (.brokerCall (.createTopic tid))) →
      Event.brokerOp (.existsSub e.subID) ∉ (runMain w e b).2.2) := by
  refine ⟨fun h => runMain_ok_errs h, ?_, ?_, ?_⟩
  · intro op h
    obtain ⟨hbp, hops⟩ := runMain_fatal_broker_inv h
    obtain ⟨op', hk, he, l, hl, hlf⟩ := brokerPhase_fatal_errs hbp
    have hope : op = op' := by
      simpa [ExitKind.brokerCall.injEq] using hk
    subst hope
    exact ⟨he, l, by rw [hops, hl], hlf⟩
  · intro h c hmem
    rcases runMain_trace_split w e b with hno | ⟨-, t1, htr, ht1, hst, -⟩
    · exact hno _ hmem
    · have hbp : (brokerPhase w.err e b).1 = .fatal (.brokerCall (.deleteSub e.subID)) := by
        rw [← hst]
        exact h
      rw [htr] at hmem
      rcases List.mem_append.mp hmem with hmem | hmem
      · exact ht1 _ hmem
      · rcases List.mem_cons.mp hmem with hmem | hmem
        · simp at hmem
        · exact brokerPhase_deleteSub_no_createSub hbp c hmem
  · intro tid h hmem
    rcases runMain_trace_split w e b with hno | ⟨-, t1, htr, ht1, hst, -⟩
    · exact hno _ hmem
    · have hbp : (brokerPhase w.err e b).1 = .fatal (.brokerCall (.existsTopic tid)) ∨
          (brokerPhase w.err e b).1 = .fatal (.brokerCall (.createTopic tid)) := by
        rw [← hst]
        exact h
      rw [htr] at hmem
      rcases List.mem_append.mp hmem with hmem | hmem
      · exact ht1 _ hmem
      · rcases List.mem_cons.mp hmem with hmem | hmem
        · simp at hmem
        · exact brokerPhase_topic_fatal_no_sub hbp hmem

/-- A world in which only the subscription deletion fails. -/
def failDeleteWorld : World :=
  { okWorld with
    err := fun op => match op with | .deleteSub id => id == "s" | _ => false }

/-- A world in which only the DLT existence check fails. -/
def failTopicWorld : World :=
  { okWorld with
    err := fun op => match op with | .existsTopic id => id == "d" | _ => false }

/-- Witness for C8: a clean run, a run failing at the subscription deletion,
and a run failing at the DLT existence check. -/
theorem fatal_on_error_control_flow_witness :
    ((runMain okWorld sampleEnv ⟨[], []⟩).1 = .ok ∧
      ∀ o ∈ brokerOps (runMain okWorld sampleEnv ⟨[], []⟩).2.2,
        okWorld.err o = false) ∧
    ((runMain failDeleteWorld sampleEnv ⟨[], [("s", staleSubConfig)]⟩).1 =
        .fatal (.brokerCall (.deleteSub sampleEnv.subID)) ∧
      (failDeleteWorld.err (.deleteSub sampleEnv.subID) = true ∧
        ∃ l, brokerOps
            (runMain failDeleteWorld sampleEnv ⟨[], [("s", staleSubConfig)]⟩).2.2 =
            l ++ [.deleteSub sampleEnv.subID] ∧
          ∀ o ∈ l, failDeleteWorld.err o = false)) ∧
    (∀ c, Event.brokerOp (.createSub sampleEnv.subID c) ∉
        (runMain failDeleteWorld sampleEnv ⟨[], [("s", staleSubConfig)]⟩).2.2) ∧
    ((runMain failTopicWorld sampleEnv ⟨[], []⟩).1 =
        .fatal (.brokerCall (.existsTopic "d")) ∧
      Event.brokerOp (.existsSub sampleEnv.subID) ∉
        (runMain failTopicWorld sampleEnv ⟨[], []⟩).2.2) :=
  ⟨⟨by decide, (fatal_on_error_control_flow okWorld sampleEnv ⟨[], []⟩).1 (by decide)⟩,
   ⟨by decide, (fatal_on_error_control_flow failDeleteWorld sampleEnv
       ⟨[], [("s", staleSubConfig)]⟩).2.1 (.deleteSub sampleEnv.subID) (by decide)⟩,
   (fatal_on_error_control_flow failDeleteWorld sampleEnv
       ⟨[], [("s", staleSubConfig)]⟩).2.2.1 (by decide),
   ⟨by decide, (fatal_on_error_control_flow failTopicWorld sampleEnv ⟨[], []⟩).2.2.2 "d"
       (Or.inl (by decide))⟩⟩

/-- The provisioning step an operation belongs to, in source order: the DLT
step (1), the main-topic step (2), the subscription step (3).  When the two
topic ids coincide, both topic steps are step 1. -/
def opPhase (e : Env) : BrokerOp → Nat
  | .existsTopic id => if id = e.dltID then 1 else 2
  | .createTopic id => if id = e.dltID then 1 else 2
  | .deleteTopic id => if id = e.dltID then 1 else 2
  | .existsSub _ => 3
  | .deleteSub _ => 3
  | .createSub _ _ => 3

theorem chain'_le_const (c : Nat) :
    ∀ l : List Nat, (∀ x ∈ l, x = c) → List.Chain' (· ≤ ·) l
  | [], _ => List.chain'_nil
  | [a], _ => List.chain'_singleton a
  | a :: b :: t, h => by
    rw [List.chain'_cons]
    refine ⟨?_, chain'_le_const c (b :: t) fun x hx => h x (List.mem_cons_of_mem a hx)⟩
    rw [h a (by simp), h b (by simp)]

theorem chain'_le_append {l1 l2 : List Nat} (h1 : List.Chain' (· ≤ ·) l1)
    (h2 : List.Chain' (· ≤ ·) l2) (hb : ∀ x ∈ l1, ∀ y ∈ l2, x ≤ y) :
    List.Chain' (· ≤ ·) (l1 ++ l2) := by
  refine List.Chain'.append h1 h2 ?_
  intro x hx y hy
  have hxl : x ∈ l1 := by
    obtain ⟨hne, rfl⟩ := List.mem_getLast?_eq_getLast hx
    exact List.getLast_mem hne
  exact hb x hxl y (List.mem_of_mem_head? hy)

theorem brokerOps_nil_of_no_ops {tr : List Event}
    (h : ∀ op, Event.brokerOp op ∉ tr) : brokerOps tr = [] := by
  cases hb : brokerOps tr with
  | nil => rfl
  | cons o t =>
    have ho : o ∈ brokerOps tr := by rw [hb]; simp
    exact absurd (mem_brokerOps.mp ho) (h o)

theorem brokerPhase_ops_sorted (err : BrokerOp → Bool) (e : Env) (b : BrokerState) :
    List.Chain' (· ≤ ·) ((brokerOps (brokerPhase err e b).2.2).map (opPhase e)) := by
  have hA : ∀ (id : String) (bb : BrokerState) (st : ExitStatus) (bc : BrokerState)
      (evs : List Event), ensureTopic err id bb = (st, bc, evs) →
      ∀ x ∈ (brokerOps evs).map (opPhase e), x = opPhase e (.existsTopic id) := by
    intro id bb st bc evs hens x hx
    simp only [List.mem_map] at hx
    obtain ⟨o, ho, rfl⟩ := hx
    have hev := ensureTopic_events err id bb
    rw [hens] at hev
    rcases hev _ (mem_brokerOps.mp ho) with h' | h' | h'
    · simp only [Event.brokerOp.injEq] at h'
      rw [h']
    · simp only [Event.brokerOp.injEq] at h'
      rw [h']
      rfl
    · simp at h'
  have hC : ∀ (bb : BrokerState) (st : ExitStatus) (bc : BrokerState) (evs : List Event),
      subscriptionPhase err e bb = (st, bc, evs) →
      ∀ x ∈ (brokerOps evs).map (opPhase e), x = 3 := by
    intro bb st bc evs hsub x hx
    simp only [List.mem_map] at hx
    obtain ⟨o, ho, rfl⟩ := hx
    have hev := subscriptionPhase_events err e bb
    rw [hsub] at hev
    rcases hev _ (mem_brokerOps.mp ho) with h' | h' | h' | h'
    · simp only [Event.brokerOp.injEq] at h'
      rw [h']
      rfl
    · simp only [Event.brokerOp.injEq] at h'
      rw [h']
      rfl
    · simp only [Event.brokerOp.injEq] at h'
      rw [h']
      rfl
    · simp at h'
  have hd1 : opPhase e (.existsTopic e.dltID) = 1 := by simp [opPhase]
  have hbnd : ∀ id : String, 1 ≤ opPhase e (.existsTopic id) ∧
      opPhase e (.existsTopic id) ≤ 3 := by
    intro id
    simp only [opPhase]
    split <;> omega
  rcases h1 : ensureTopic err e.dltID b with ⟨st1, b1, evs1⟩
  cases st1 with
  | fatal k1 =>
    rw [brokerPhase_eq_fatal1 h1]
    exact chain'_le_const 1 _ fun x hx => by rw [hA _ _ _ _ _ h1 x hx, hd1]
  | ok =>
    rcases h2 : ensureTopic err e.topicID b1 with ⟨st2, b2, evs2⟩
    cases st2 with
    | fatal k2 =>
      rw [brokerPhase_eq_fatal2 h1 h2]
      simp only [brokerOps_append, List.map_append]
      refine chain'_le_append
        (chain'_le_const 1 _ fun x hx => by rw [hA _ _ _ _ _ h1 x hx, hd1])
        (chain'_le_const (opPhase e (.existsTopic e.topicID)) _
          fun x hx => hA _ _ _ _ _ h2 x hx) ?_
      intro x hx y hy
      rw [hA _ _ _ _ _ h1 x hx, hd1, hA _ _ _ _ _ h2 y hy]
      exact (hbnd e.topicID).1
    | ok =>
      rw [brokerPhase_eq_sub h1 h2]
      simp only [brokerOps_append, List.map_append]
      rcases hs : subscriptionPhase err e b2 with ⟨st3, b3, evs3⟩
      simp only
      refine chain'_le_append (chain'_le_append
          (chain'_le_const 1 _ fun x hx => by rw [hA _ _ _ _ _ h1 x hx, hd1])
          (chain'_le_const (opPhase e (.existsTopic e.topicID)) _
            fun x hx => hA _ _ _ _ _ h2 x hx) ?_)
        (chain'_le_const 3 _ fun x hx => hC _ _ _ _ hs x hx) ?_
      · intro x hx y hy
        rw [hA _ _ _ _ _ h1 x hx, hd1, hA _ _ _ _ _ h2 y hy]
        exact (hbnd e.topicID).1
      · intro x hx y hy
        rw [hC _ _ _ _ hs y hy]
        rcases List.mem_append.mp hx with hx | hx
        · rw [hA _ _ _ _ _ h1 x hx, hd1]
          omega
        · rw [hA _ _ _ _ _ h2 x hx]
          exact (hbnd e.topicID).2

theorem brokerPhase_head (err : BrokerOp → Bool) (e : Env) (b : BrokerState) :
    ∃ t, (brokerPhase err e b).2.2 = Event.brokerOp (.existsTopic e.dltID) :: t := by
  rcases h1 : ensureTopic err e.dltID b with ⟨st1, b1, evs1⟩
  have hevs1 : ∃ t0, evs1 = Event.brokerOp (.existsTopic e.dltID) :: t0 := by
    rcases ensureTopic_cases err e.dltID b with ⟨_, hq⟩ | ⟨_, _, hq⟩ | ⟨_, _, _, hq⟩ |
      ⟨_, _, _, hq⟩ <;> rw [hq] at h1 <;> simp only [Prod.mk.injEq] at h1 <;>
      exact ⟨_, h1.2.2.symm⟩
  obtain ⟨t0, rfl⟩ := hevs1
  cases st1 with
  | fatal k1 =>
    rw [brokerPhase_eq_fatal1 h1]
    exact ⟨t0, rfl⟩
  | ok =>
    rcases h2 : ensureTopic err e.topicID b1 with ⟨st2, b2, evs2⟩
    cases st2 with
    | fatal k2 =>
      rw [brokerPhase_eq_fatal2 h1 h2]
      exact ⟨t0 ++ evs2, by simp⟩
    | ok =>
      rw [brokerPhase_eq_sub h1 h2]
      exact ⟨t0 ++ evs2 ++ (subscriptionPhase err e b2).2.2, by simp⟩

theorem brokerPhase_createSub_topics {err : BrokerOp → Bool} {e : Env} {b : BrokerState}
    {id : String} {c : SubscriptionConfig}
    (h : Event.brokerOp (.createSub id c) ∈ (brokerPhase err e b).2.2) :
    e.dltID ∈ (brokerPhase err e b).2.1.topics ∧
    e.topicID ∈ (brokerPhase err e b).2.1.topics := by
  rcases h1 : ensureTopic err e.dltID b with ⟨st1, b1, evs1⟩
  have he1 := ensureTopic_events err e.dltID b
  rw [h1] at he1
  cases st1 with
  | fatal k1 =>
    rw [brokerPhase_eq_fatal1 h1] at h
    simp only at h
    have := he1 _ h
    simp at this
  | ok =>
    rcases h2 : ensureTopic err e.topicID b1 with ⟨st2, b2, evs2⟩
    have he2 := ensureTopic_events err e.topicID b1
    rw [h2] at he2
    cases st2 with
    | fatal k2 =>
      rw [brokerPhase_eq_fatal2 h1 h2] at h
      simp only [List.mem_append] at h
      rcases h with h | h
      · have := he1 _ h
        simp at this
      · have := he2 _ h
        simp at this
    | ok =>
      rw [brokerPhase_eq_sub h1 h2]
      have hd1 : e.dltID ∈ b1.topics := by
        rcases ensureTopic_ok_inv h1 with ⟨hm, hb, _⟩ | ⟨hm, hb, _⟩ <;>
          rw [hb] <;> simp [BrokerState.createTopic, hm]
      have hd2 : e.dltID ∈ b2.topics ∧ e.topicID ∈ b2.topics := by
        rcases ensureTopic_ok_inv h2 with ⟨hm, hb, _⟩ | ⟨hm, hb, _⟩ <;>
          rw [hb] <;> simp [BrokerState.createTopic, hd1, hm]
      simp only
      rw [subscriptionPhase_topics_eq]
      exact hd2

/-- C9: broker calls are issued in the fixed source order — the DLT step,
then the main-topic step, then the subscription step (via `opPhase`); when
any broker call happens at all, the very first one is the DLT existence
check; no broker call is issued before the TCP wait has succeeded and the
client has been created; and whenever a create-subscription call happens,
both topics are already present in the resulting broker state, so the
dead-letter policy never references a topic the run has not ensured. -/
theorem provisioning_order (w : World) (e : Env) (b : BrokerState) :
    List.Chain' (· ≤ ·) ((brokerOps (runMain w e b).2.2).map (opPhase e)) ∧
    (brokerOps (runMain w e b).2.2 ≠ [] →
      (brokerOps (runMain w e b).2.2).head? = some (.existsTopic e.dltID)) ∧
    ((∀ op, Event.brokerOp op ∉ (runMain w e b).2.2) ∨
      ((waitForPubSubEmulator w.dial 30).1 = .ok () ∧
        ∃ t1, (runMain w e b).2.2 =
            t1 ++ Event.clientCreated :: (brokerPhase w.err e b).2.2 ∧
          ∀ op, Event.brokerOp op ∉ t1)) ∧
    (∀ id c, Event.brokerOp (.createSub id c) ∈ (runMain w e b).2.2 →
      e.dltID ∈ (runMain w e b).2.1.topics ∧
      e.topicID ∈ (runMain w e b).2.1.topics) := by
  rcases runMain_trace_split w e b with hno | ⟨hw, t1, htr, ht1, hst, hbs⟩
  · have hops : brokerOps (runMain w e b).2.2 = [] := brokerOps_nil_of_no_ops hno
    refine ⟨by rw [hops]; exact List.chain'_nil, fun hne => absurd hops hne, Or.inl hno,
      ?_⟩
    intro id c hmem
    exact absurd hmem (hno _)
  · have hops : brokerOps (runMain w e b).2.2 =
        brokerOps (brokerPhase w.err e b).2.2 := by
      rw [htr, brokerOps_append, brokerOps_nil_of_no_ops ht1]
      simp [brokerOps]
    refine ⟨?_, ?_, Or.inr ⟨hw, t1, htr, ht1⟩, ?_⟩
    · rw [hops]
      exact brokerPhase_ops_sorted w.err e b
    · intro hne
      rw [hops]
      obtain ⟨t, hhead⟩ := brokerPhase_head w.err e b
      rw [hhead]
      simp [brokerOps]
    · intro id c hmem
      rw [htr] at hmem
      rcases List.mem_append.mp hmem with hmem | hmem
      · exact absurd hmem (ht1 _)
      · rcases List.mem_cons.mp hmem with hmem | hmem
        · simp at hmem
        · rw [hbs]
          exact brokerPhase_createSub_topics hmem

/-- Witness for C9 on a concrete successful run. -/
theorem provisioning_order_witness :
    List.Chain' (· ≤ ·) ((brokerOps (runMain okWorld sampleEnv ⟨[], []⟩).2.2).map
      (opPhase sampleEnv)) ∧
    (brokerOps (runMain okWorld sampleEnv ⟨[], []⟩).2.2).head? =
      some (.existsTopic sampleEnv.dltID) ∧
    (sampleEnv.dltID ∈ (runMain okWorld sampleEnv ⟨[], []⟩).2.1.topics ∧
      sampleEnv.topicID ∈ (runMain okWorld sampleEnv ⟨[], []⟩).2.1.topics) :=
  ⟨(provisioning_order okWorld sampleEnv ⟨[], []⟩).1,
   (provisioning_order okWorld sampleEnv ⟨[], []⟩).2.1 (by decide),
   (provisioning_order okWorld sampleEnv ⟨[], []⟩).2.2.2 "s" (freshSubConfig sampleEnv)
     (by decide)⟩

/-- C10: `NewAppLogger` never fails fatally on a bad log level.  An empty
level string yields level Info and no error; a non-empty unparseable level
string still yields level Info together with an error for which
`errors.Is(err, ErrUnknownLogLevel)` holds; `main`'s logger stage aborts
exactly for logger errors that are not `ErrUnknownLogLevel`; `NewAppLogger`
never produces such an error; and consequently no run of `main` ever ends
with the logger-configuration failure. -/
theorem appLogger_unknown_level_nonfatal (parse : String → Option LogLevel)
    (env s : String) (w : World) (e : Env) (b : BrokerState) :
    (s = "" → NewAppLogger parse env s = (.info, none)) ∧
    (s ≠ "" → parse s = none →
      NewAppLogger parse env s = (.info, some (.unknownLogLevel s)) ∧
      isUnknownLogLevel (.unknownLogLevel s) = true) ∧
    (∀ oe : Option LoggerError,
      loggerAbortDecision oe = true ↔ ∃ m, oe = some (.other m)) ∧
    loggerAbortDecision (NewAppLogger parse env s).2 = false ∧
    (runMain w e b).1 ≠ .fatal .loggerConfig := by
  refine ⟨fun hs => by simp [NewAppLogger, hs], fun hs hp => ?_, ?_, ?_, ?_⟩
  · exact ⟨by simp [NewAppLogger, hs, hp], rfl⟩
  · intro oe
    rcases oe with - | le
    · simp [loggerAbortDecision]
    · rcases le with d | m <;> simp [loggerAbortDecision, isUnknownLogLevel]
  · rcases NewAppLogger_snd_cases parse env s with hm | hm <;> rw [hm] <;>
      simp [loggerAbortDecision, isUnknownLogLevel]
  · intro h
    rcases runMain_cases w e b with hq | ⟨pre, hpre, hq | hq | ⟨msg, trW, hwp, hq⟩ |
      ⟨trW, hwp, hq | hq⟩⟩ <;> rw [hq] at h <;> simp only at h <;> try simp at h
    obtain ⟨op, hk, -⟩ := brokerPhase_fatal_errs h
    simp at hk

/-- Witness for C10: the empty and an unparseable level string, the abort
decision on both error forms, and a concrete run. -/
theorem appLogger_unknown_level_nonfatal_witness :
    NewAppLogger (fun _ => none) "" "" = (.info, none) ∧
    (NewAppLogger (fun _ => none) "" "BOGUS" =
        (.info, some (.unknownLogLevel "BOGUS")) ∧
      isUnknownLogLevel (.unknownLogLevel "BOGUS") = true) ∧
    loggerAbortDecision (some (.other "boom")) = true ∧
    loggerAbortDecision (NewAppLogger (fun _ => none) "" "BOGUS").2 = false ∧
    (runMain okWorld sampleEnv ⟨[], []⟩).1 ≠ .fatal .loggerConfig :=
  ⟨(appLogger_unknown_level_nonfatal (fun _ => none) "" "" okWorld sampleEnv
      ⟨[], []⟩).1 rfl,
   (appLogger_unknown_level_nonfatal (fun _ => none) "" "BOGUS" okWorld sampleEnv
      ⟨[], []⟩).2.1 (by decide) rfl,
   ((appLogger_unknown_level_nonfatal (fun _ => none) "" "BOGUS" okWorld sampleEnv
      ⟨[], []⟩).2.2.1 (some (.other "boom"))).mpr ⟨"boom", rfl⟩,
   (appLogger_unknown_level_nonfatal (fun _ => none) "" "BOGUS" okWorld sampleEnv
      ⟨[], []⟩).2.2.2.1,
   (appLogger_unknown_level_nonfatal (fun _ => none) "" "BOGUS" okWorld sampleEnv
      ⟨[], []⟩).2.2.2.2⟩
